import Mathlib

/-!
Verification development for the session- and query-lifecycle subsystem of the
nebula metadata service (`src/meta/processors/session/SessionManagerProcessor.cpp`).

The subsystem is embedded shallowly:
* the persisted session table (`kvstore` entries under the session prefix) is an
  association list from session ids to `Session` records; `MetaKeyUtils.sessionKey`
  is an injective encoding of the session id, so keys are modelled by the ids
  themselves;
* each request handler (`CreateSessionProcessor.process`, etc.) becomes a pure
  function from the pre-state plus the externally determined outcomes (the user
  directory check, the clock reading, and the store layer's put/remove results,
  which are outside this subsystem) to the post-state and response;
* `doGet` calls are modelled by an oracle `g : Nat → Except ErrorCode Session`,
  because the store layer may fail with arbitrary codes.  The consistent-store
  instantiation is `Store.get st`, which yields the stored record or
  `E_KEY_NOT_FOUND`.  Reading `nebula::value` of a failed result (which the C++
  does on the unhandled error path of `UpdateSessionsProcessor`) is modelled by
  `valueOf`, returning the fixed junk record `defaultSession`.
-/

/-- Status of one query inside a session (`cpp2::QueryStatus`): the subsystem only
uses `RUNNING` and `KILLING`. -/
inductive QueryStatus where
  | RUNNING
  | KILLING
deriving DecidableEq, Repr

/-- Descriptor of one query (`cpp2::QueryDesc`).  Besides `status`, the descriptor
carries metadata that is opaque to this subsystem and carried through unchanged;
it is modelled by the single field `info`. -/
structure QueryDesc where
  status : QueryStatus
  info : Nat
deriving DecidableEq, Repr

/-- A session record (`cpp2::Session`), with the fields this subsystem touches.
`queries` maps execution-plan ids to query descriptors (an association list
modelling the thrift map). -/
structure Session where
  session_id : Nat
  create_time : Nat
  update_time : Nat
  user_name : String
  graph_addr : String
  client_ip : String
  queries : List (Nat × QueryDesc)
deriving DecidableEq, Repr

/-- Error codes of `nebula::cpp2::ErrorCode` used by the subsystem; every other
code is represented by `E_OTHER`. -/
inductive ErrorCode where
  | SUCCEEDED
  | E_KEY_NOT_FOUND
  | E_SESSION_NOT_FOUND
  | E_QUERY_NOT_FOUND
  | E_USER_NOT_FOUND
  | E_OTHER (code : Nat)
deriving DecidableEq, Repr

/-- First-match lookup in an association list keyed by `Nat` (the observable
behaviour of the C++ `unordered_map::find` / kvstore point get). -/
def alookup {α : Type} (k : Nat) : List (Nat × α) → Option α
  | [] => none
  | p :: rest => if k = p.1 then some p.2 else alookup k rest

/-- The persisted session table: all kvstore entries under the session prefix. -/
def Store : Type := List (Nat × Session)

instance : DecidableEq Store := inferInstanceAs (DecidableEq (List (Nat × Session)))

/-- Point get against a consistent store: the stored record, or the store's
generic `E_KEY_NOT_FOUND`. -/
def Store.get (st : Store) (sessionId : Nat) : Except ErrorCode Session :=
  match alookup sessionId st with
  | some s => .ok s
  | none => .error .E_KEY_NOT_FOUND

/-- Write one key/value pair: replace the entry for the key if present,
otherwise append it. -/
def Store.put1 : Store → Nat × Session → Store
  | [], kv => [kv]
  | p :: rest, kv => if p.1 = kv.1 then kv :: rest else p :: Store.put1 rest kv

/-- Batched write (`doSyncPut` of a KV vector): apply the pairs in order. -/
def Store.putAll (st : Store) (data : List (Nat × Session)) : Store :=
  data.foldl Store.put1 st

/-- Remove the entry for a key (`asyncRemove` of a session key). -/
def Store.remove : Store → Nat → Store
  | [], _ => []
  | p :: rest, sessionId =>
    if p.1 = sessionId then Store.remove rest sessionId
    else p :: Store.remove rest sessionId

/-- Fixed junk record standing for the unspecified value read when the C++ calls
`nebula::value` on a failed `doGet` result (the unhandled error path of
`UpdateSessionsProcessor::process`). -/
def defaultSession : Session :=
  { session_id := 0, create_time := 0, update_time := 0,
    user_name := "", graph_addr := "", client_ip := "", queries := [] }

/-- Model of `nebula::value(ret)`: the held session on success, the junk record
on a failed result. -/
def valueOf : Except ErrorCode Session → Session
  | .ok s => s
  | .error _ => defaultSession

/-- Model of `nebula::error(ret) == ErrorCode::E_KEY_NOT_FOUND` on a `doGet`
result. -/
def isKeyNotFound : Except ErrorCode Session → Bool
  | .error .E_KEY_NOT_FOUND => true
  | _ => false

/-- Set a descriptor's status to `KILLING`
(`query->second.status_ref() = cpp2::QueryStatus::KILLING`). -/
def setKilling (d : QueryDesc) : QueryDesc := { d with status := .KILLING }

/-- Overwrite the status of the entry for `epId` to `KILLING` in place, leaving
every other entry and all other descriptor fields unchanged. -/
def updateStatus (qs : List (Nat × QueryDesc)) (epId : Nat) : List (Nat × QueryDesc) :=
  qs.map (fun p => if p.1 = epId then (p.1, setKilling p.2) else p)

/-- The reconciliation loop over the persisted session's queries in
`UpdateSessionsProcessor::process` (lines 73-84): for every saved query whose
plan id also occurs in the submitted snapshot and whose saved status is
`KILLING`, flip the snapshot's copy to `KILLING` in place and record the saved
descriptor.  Returns the updated snapshot queries and the per-session killed
map. -/
def mergeQueries : List (Nat × QueryDesc) → List (Nat × QueryDesc) →
    List (Nat × QueryDesc) × List (Nat × QueryDesc)
  | [], newQueries => (newQueries, [])
  | (epId, desc) :: saved, newQueries =>
    match alookup epId newQueries with
    | none => mergeQueries saved newQueries
    | some _ =>
      if desc.status = .KILLING then
        ((mergeQueries saved (updateStatus newQueries epId)).1,
         (epId, desc) :: (mergeQueries saved (updateStatus newQueries epId)).2)
      else mergeQueries saved newQueries

/-- Accumulators of `UpdateSessionsProcessor::process`: the staged KV batch
`data`, the `killedQueries` response map and the `killedSessions` response
list. -/
structure UpdateAcc where
  data : List (Nat × Session)
  killedQueries : List (Nat × List (Nat × QueryDesc))
  killedSessions : List Nat
deriving DecidableEq, Repr

/-- Insert-or-assign on an association list: the observable behaviour of C++
`unordered_map::operator[]` followed by assignment — replace the entry for the
key if one is present, otherwise add one. -/
def aupsert {α : Type} : List (Nat × α) → Nat → α → List (Nat × α)
  | [], k, v => [(k, v)]
  | p :: rest, k, v =>
    if p.1 = k then (k, v) :: rest else p :: aupsert rest k v

/-- Record the per-session killed-query map into the accumulator when it is
nonempty (lines 85-87): `killedQueries[sessionId] = ...` is an unordered_map
insert-or-assign, so a later snapshot with the same session id overwrites an
earlier entry. -/
def addKilledQueries (acc : UpdateAcc) (session sessionInMeta : Session) : UpdateAcc :=
  if (mergeQueries sessionInMeta.queries session.queries).2.isEmpty then acc
  else
    { acc with
      killedQueries :=
        aupsert acc.killedQueries session.session_id
          (mergeQueries sessionInMeta.queries session.queries).2 }

/-- Body of one iteration of the snapshot loop after the lookup produced
`sessionInMeta` (lines 68-96): reconcile queries, record killed queries, and,
unless the persisted update time is strictly newer, stage the (possibly
kill-flag-augmented) snapshot for the batched write. -/
def updateBody (acc : UpdateAcc) (session sessionInMeta : Session) : UpdateAcc :=
  if sessionInMeta.update_time > session.update_time then
    addKilledQueries acc session sessionInMeta
  else
    let acc1 := addKilledQueries acc session sessionInMeta
    { acc1 with
      data :=
        acc1.data ++
          [(session.session_id,
            { session with
              queries := (mergeQueries sessionInMeta.queries session.queries).1 })] }

/-- One iteration of the snapshot loop of `UpdateSessionsProcessor::process`
(lines 53-97): on a generic key-not-found lookup failure record the session as
killed and move on; on any other lookup outcome fall through into the merge
logic using the (possibly failed) lookup's result value. -/
def updateStep (g : Nat → Except ErrorCode Session) (acc : UpdateAcc)
    (session : Session) : UpdateAcc :=
  if isKeyNotFound (g session.session_id) then
    { acc with killedSessions := acc.killedSessions ++ [session.session_id] }
  else updateBody acc session (valueOf (g session.session_id))

/-- The whole snapshot loop of `UpdateSessionsProcessor::process`. -/
def updateSessionsCore (g : Nat → Except ErrorCode Session)
    (sessions : List Session) : UpdateAcc :=
  sessions.foldl (updateStep g) ⟨[], [], []⟩

/-- Response of `UpdateSessions`: the error code and the two optional thrift
fields; `none` models a field the handler never assigned. -/
structure UpdateSessionsResp where
  code : ErrorCode
  killed_queries : Option (List (Nat × List (Nat × QueryDesc)))
  killed_sessions : Option (List Nat)
deriving DecidableEq, Repr

/-- The response computed by `UpdateSessionsProcessor::process` (lines 99-111):
on a failed batched write the handler returns early with the store error and
never assigns the response fields; on success it reports the accumulated
results. -/
def updateSessionsRespG (g : Nat → Except ErrorCode Session) (putResult : ErrorCode)
    (sessions : List Session) : UpdateSessionsResp :=
  if putResult = .SUCCEEDED then
    ⟨.SUCCEEDED, some (updateSessionsCore g sessions).killedQueries,
      some (updateSessionsCore g sessions).killedSessions⟩
  else ⟨putResult, none, none⟩

/-- `UpdateSessionsProcessor::process` against a consistent store: `putResult`
is the store layer's verdict on the final batched write, which applies the
staged batch exactly when it succeeds. -/
def updateSessionsProcess (st : Store) (putResult : ErrorCode)
    (sessions : List Session) : Store × UpdateSessionsResp :=
  (if putResult = .SUCCEEDED then
      st.putAll (updateSessionsCore (Store.get st) sessions).data
    else st,
   updateSessionsRespG (Store.get st) putResult sessions)

/-- Per-snapshot contribution to the staged KV batch. -/
def stageList (g : Nat → Except ErrorCode Session) (session : Session) :
    List (Nat × Session) :=
  if isKeyNotFound (g session.session_id) then []
  else if (valueOf (g session.session_id)).update_time > session.update_time then []
  else
    [(session.session_id,
      { session with
        queries :=
          (mergeQueries (valueOf (g session.session_id)).queries session.queries).1 })]

/-- Per-snapshot contribution to the killed-queries response map. -/
def killedQueriesList (g : Nat → Except ErrorCode Session) (session : Session) :
    List (Nat × List (Nat × QueryDesc)) :=
  if isKeyNotFound (g session.session_id) then []
  else if (mergeQueries (valueOf (g session.session_id)).queries session.queries).2.isEmpty
    then []
  else
    [(session.session_id,
      (mergeQueries (valueOf (g session.session_id)).queries session.queries).2)]

/-- Per-snapshot contribution to the killed-sessions response list. -/
def killedSessList (g : Nat → Except ErrorCode Session) (session : Session) :
    List Nat :=
  if isKeyNotFound (g session.session_id) then [session.session_id] else []

/-- Concatenation of per-element contributions; used to characterize the
accumulators of the snapshot loop. -/
def concatMap {α β : Type} (f : α → List β) : List α → List β
  | [] => []
  | x :: l => f x ++ concatMap f l

/-- The session record built by `CreateSessionProcessor::process` (lines 22-29):
the id comes from the microsecond clock and `create_time = update_time =
session_id`; the query map starts out empty (thrift default). -/
def freshSession (clock : Nat) (user graphAddr clientIp : String) : Session :=
  { session_id := clock, create_time := clock, update_time := clock,
    user_name := user, graph_addr := graphAddr, client_ip := clientIp,
    queries := [] }

/-- `CreateSessionProcessor::process` (lines 11-42).  `userCheck` is the outcome
of the external `userExist` directory check, `clock` the microsecond clock
reading, and `putResult` the store's verdict on the single synchronous write
(the write takes effect exactly when it succeeds).  The response session field
is assigned before the write, so it is present even when the write fails. -/
def createSessionProcess (st : Store) (userCheck : ErrorCode) (clock : Nat)
    (user graphAddr clientIp : String) (putResult : ErrorCode) :
    Store × ErrorCode × Option Session :=
  if userCheck ≠ .SUCCEEDED then (st, userCheck, none)
  else
    (if putResult = .SUCCEEDED then
        st.put1 (clock, freshSession clock user graphAddr clientIp)
      else st,
     putResult, some (freshSession clock user graphAddr clientIp))

/-- The inner plan-id loop of `KillQueryProcessor::process` (lines 227-235):
each requested plan id must exist in the fetched session's query map, otherwise
the whole request fails with `E_QUERY_NOT_FOUND`; found entries get their
status flipped to `KILLING`. -/
def killEps (s : Session) : List Nat → Except ErrorCode Session
  | [] => .ok s
  | ep :: rest =>
    match alookup ep s.queries with
    | none => .error .E_QUERY_NOT_FOUND
    | some _ => killEps { s with queries := updateStatus s.queries ep } rest

/-- The session loop of `KillQueryProcessor::process` (lines 211-238): look up
each named session (translating the store's generic not-found into
`E_SESSION_NOT_FOUND`), flip the requested queries, and stage the updated
session; the first failure aborts the whole request. -/
def killQueryLoop (g : Nat → Except ErrorCode Session) :
    List (Nat × List Nat) → List (Nat × Session) →
    Except ErrorCode (List (Nat × Session))
  | [], data => .ok data
  | (sessionId, eps) :: rest, data =>
    match g sessionId with
    | .error e =>
      .error (if e = .E_KEY_NOT_FOUND then .E_SESSION_NOT_FOUND else e)
    | .ok s =>
      match killEps s eps with
      | .error e => .error e
      | .ok s' => killQueryLoop g rest (data ++ [(sessionId, s')])

/-- `KillQueryProcessor::process` (lines 206-247) against a consistent store:
on a loop failure nothing is written and the failure code is reported; on
success the staged sessions go out in one batched write whose result code is
reported as-is. -/
def killQueryProcess (st : Store) (putResult : ErrorCode)
    (req : List (Nat × List Nat)) : Store × ErrorCode :=
  match killQueryLoop (Store.get st) req [] with
  | .error e => (st, e)
  | .ok data =>
    (if putResult = .SUCCEEDED then st.putAll data else st, putResult)

/-- The per-id loop of `RemoveSessionProcessor::process` (lines 168-199).
`getFail` injects store-layer failures of the per-id `doGet` (with `none` the
get consults the live table); `removeResult` is the store's verdict on the
individual `asyncRemove`, which removes the key exactly when it succeeds.  Any
failed lookup, and any failed remove, just skips the id. -/
def removeGet (getFail : Nat → Option ErrorCode) (st : Store) (sessionId : Nat) :
    Except ErrorCode Session :=
  match getFail sessionId with
  | some e => .error e
  | none => Store.get st sessionId

/-- The loop of `RemoveSessionProcessor::process` over the requested ids. -/
def removeLoop (getFail : Nat → Option ErrorCode) (removeResult : Nat → ErrorCode) :
    Store → List Nat → List Nat → Store × List Nat
  | st, [], acc => (st, acc)
  | st, sessionId :: rest, acc =>
    match removeGet getFail st sessionId with
    | .error _ => removeLoop getFail removeResult st rest acc
    | .ok _ =>
      if removeResult sessionId = .SUCCEEDED then
        removeLoop getFail removeResult (st.remove sessionId) rest (acc ++ [sessionId])
      else removeLoop getFail removeResult st rest acc

/-- `RemoveSessionProcessor::process` (lines 162-204): run the per-id loop and
always report overall success, returning the ids actually removed. -/
def removeSessionProcess (st : Store) (getFail : Nat → Option ErrorCode)
    (removeResult : Nat → ErrorCode) (ids : List Nat) :
    Store × List Nat × ErrorCode :=
  ((removeLoop getFail removeResult st ids []).1,
   (removeLoop getFail removeResult st ids []).2, .SUCCEEDED)

/-- `GetSessionProcessor::process` (lines 140-160): point lookup, translating
the generic not-found into `E_SESSION_NOT_FOUND`; other lookup errors propagate
as-is.  Reads never change the store. -/
def getSessionProcess (g : Nat → Except ErrorCode Session) (sessionId : Nat) :
    ErrorCode × Option Session :=
  match g sessionId with
  | .error e =>
    (if e = .E_KEY_NOT_FOUND then .E_SESSION_NOT_FOUND else e, none)
  | .ok s => (.SUCCEEDED, some s)

/-- `ListSessionsProcessor::process` (lines 114-138): prefix-scan of the whole
session keyspace; returns every stored session.  Reads never change the
store. -/
def listSessionsProcess (st : Store) : ErrorCode × List Session :=
  (.SUCCEEDED, st.map Prod.snd)

/-- One invocation of a handler of the subsystem, together with the externally
determined outcomes it consumes (directory check, clock, store put/remove
verdicts, injected lookup failures). -/
inductive SessionOp where
  | create (user graphAddr clientIp : String) (userCheck : ErrorCode)
      (clock : Nat) (putResult : ErrorCode)
  | update (sessions : List Session) (putResult : ErrorCode)
  | removeOp (ids : List Nat) (getFail : Nat → Option ErrorCode)
      (removeResult : Nat → ErrorCode)
  | kill (req : List (Nat × List Nat)) (putResult : ErrorCode)
  | listOp
  | getOp (sessionId : Nat)

/-- The persisted-table transition of one handler invocation. -/
def SessionOp.apply (op : SessionOp) (st : Store) : Store :=
  match op with
  | .create user graphAddr clientIp userCheck clock putResult =>
    (createSessionProcess st userCheck clock user graphAddr clientIp putResult).1
  | .update sessions putResult => (updateSessionsProcess st putResult sessions).1
  | .removeOp ids getFail removeResult =>
    (removeSessionProcess st getFail removeResult ids).1
  | .kill req putResult => (killQueryProcess st putResult req).1
  | .listOp => st
  | .getOp _ => st

/-- Status of the query `ep` of session `sessionId` as persisted in the table. -/
def statusAt (st : Store) (sessionId ep : Nat) : Option QueryStatus :=
  match alookup sessionId st with
  | none => none
  | some s => (alookup ep s.queries).map QueryDesc.status

/-- Persisted update time of session `sessionId`. -/
def updateTimeAt (st : Store) (sessionId : Nat) : Option Nat :=
  (alookup sessionId st).map Session.update_time

/-- The spec's standing assumption that clock-generated session ids do not
collide with stored ones: constrains only `create` invocations. -/
def SessionOp.createFresh (op : SessionOp) (st : Store) : Prop :=
  match op with
  | .create _ _ _ _ clock _ => alookup clock st = none
  | _ => True

/-- All sessions and all requested plan ids of a KillQuery request are present
in the store. -/
def AllPresent (st : Store) (req : List (Nat × List Nat)) : Prop :=
  ∀ p ∈ req, ∃ s, alookup p.1 st = some s ∧
    ∀ ep ∈ p.2, (alookup ep s.queries).isSome

/-- A tiny session-record builder for concrete scenarios. -/
def mkSession (sid ut : Nat) (qs : List (Nat × QueryDesc)) : Session :=
  { session_id := sid, create_time := sid, update_time := ut,
    user_name := "u", graph_addr := "g", client_ip := "c", queries := qs }

@[simp]
theorem alookup_nil {α : Type} (k : Nat) : alookup (α := α) k [] = none := rfl

@[simp]
theorem alookup_cons {α : Type} (k : Nat) (p : Nat × α) (rest : List (Nat × α)) :
    alookup k (p :: rest) = if k = p.1 then some p.2 else alookup k rest := rfl

theorem alookup_put1_self (st : Store) (kv : Nat × Session) :
    alookup kv.1 (st.put1 kv) = some kv.2 := by
  induction st with
  | nil => simp [Store.put1]
  | cons p rest ih =>
    by_cases h : p.1 = kv.1
    · simp [Store.put1, h]
    · have h' : ¬ kv.1 = p.1 := fun hh => h hh.symm
      simp [Store.put1, h, h', ih]

theorem alookup_put1_ne (st : Store) (kv : Nat × Session) (k : Nat) (h : k ≠ kv.1) :
    alookup k (st.put1 kv) = alookup k st := by
  induction st with
  | nil => simp [Store.put1, h]
  | cons p rest ih =>
    by_cases hp : p.1 = kv.1
    · have hk' : ¬ k = p.1 := by rw [hp]; exact h
      simp [Store.put1, hp, h, hk']
    · simp [Store.put1, hp, ih]

theorem alookup_putAll_or (data : List (Nat × Session)) (st : Store) (k : Nat) :
    alookup k (st.putAll data) = alookup k st ∨
      ∃ v, (k, v) ∈ data ∧ alookup k (st.putAll data) = some v := by
  induction data generalizing st with
  | nil => exact Or.inl rfl
  | cons kv rest ih =>
    have hstep : st.putAll (kv :: rest) = (st.put1 kv).putAll rest := rfl
    rcases ih (st.put1 kv) with h | ⟨v, hv, hlook⟩
    · by_cases hk : k = kv.1
      · subst hk
        refine Or.inr ⟨kv.2, by simp, ?_⟩
        rw [hstep, h, alookup_put1_self]
      · exact Or.inl (by rw [hstep, h, alookup_put1_ne st kv k hk])
    · exact Or.inr ⟨v, by simp [hv], by rw [hstep]; exact hlook⟩

theorem alookup_putAll_not_mem (data : List (Nat × Session)) (st : Store) (k : Nat)
    (h : ∀ v, (k, v) ∉ data) :
    alookup k (st.putAll data) = alookup k st := by
  induction data generalizing st with
  | nil => rfl
  | cons kv rest ih =>
    have hk : k ≠ kv.1 := by
      intro hk
      exact h kv.2 (by rw [hk, Prod.mk.eta]; exact List.mem_cons_self _ _)
    have hstep : st.putAll (kv :: rest) = (st.put1 kv).putAll rest := rfl
    rw [hstep, ih (st.put1 kv) (fun v hv => h v (by simp [hv])),
      alookup_put1_ne st kv k hk]

theorem alookup_putAll_of_mem_nodup (data : List (Nat × Session)) (st : Store)
    (k : Nat) (v : Session) (hnd : (data.map Prod.fst).Nodup) (hmem : (k, v) ∈ data) :
    alookup k (st.putAll data) = some v := by
  induction data generalizing st with
  | nil => simp at hmem
  | cons kv rest ih =>
    rw [List.map_cons, List.nodup_cons] at hnd
    have hstep : st.putAll (kv :: rest) = (st.put1 kv).putAll rest := rfl
    rcases List.mem_cons.mp hmem with h | h
    · subst h
      have hnot : ∀ w, (k, w) ∉ rest := by
        intro w hw
        exact hnd.1 (List.mem_map.mpr ⟨(k, w), hw, rfl⟩)
      rw [hstep, alookup_putAll_not_mem rest (st.put1 (k, v)) k hnot]
      exact alookup_put1_self st (k, v)
    · rw [hstep]
      exact ih (st.put1 kv) hnd.2 h

theorem alookup_remove (st : Store) (sessionId k : Nat) :
    alookup k (st.remove sessionId) =
      if k = sessionId then none else alookup k st := by
  induction st with
  | nil => simp [Store.remove]
  | cons p rest ih =>
    by_cases hp : p.1 = sessionId
    · by_cases hk : k = sessionId
      · simp only [Store.remove, if_pos hp, ih, if_pos hk]
      · have hk' : ¬ k = p.1 := by rw [hp]; exact hk
        simp only [Store.remove, if_pos hp, ih, if_neg hk, alookup_cons, if_neg hk']
    · by_cases hk : k = p.1
      · have hk2 : ¬ k = sessionId := by rw [hk]; exact hp
        simp only [Store.remove, if_neg hp, alookup_cons, if_pos hk, if_neg hk2]
      · simp only [Store.remove, if_neg hp, alookup_cons, if_neg hk, ih]

theorem addKilledQueries_data (acc : UpdateAcc) (session sessionInMeta : Session) :
    (addKilledQueries acc session sessionInMeta).data = acc.data := by
  unfold addKilledQueries
  split <;> rfl

theorem addKilledQueries_ks (acc : UpdateAcc) (session sessionInMeta : Session) :
    (addKilledQueries acc session sessionInMeta).killedSessions = acc.killedSessions := by
  unfold addKilledQueries
  split <;> rfl

theorem updateBody_killedSessions (acc : UpdateAcc) (session sessionInMeta : Session) :
    (updateBody acc session sessionInMeta).killedSessions = acc.killedSessions := by
  unfold updateBody
  split <;> simp [addKilledQueries_ks]

theorem updateStep_data (g : Nat → Except ErrorCode Session) (acc : UpdateAcc)
    (session : Session) :
    (updateStep g acc session).data = acc.data ++ stageList g session := by
  unfold updateStep stageList updateBody
  by_cases h : isKeyNotFound (g session.session_id)
  · simp [h]
  · by_cases h2 : (valueOf (g session.session_id)).update_time > session.update_time
    · simp [h, h2, addKilledQueries_data]
    · simp [h, h2, addKilledQueries_data]

theorem alookup_aupsert_self {α : Type} (m : List (Nat × α)) (k : Nat) (v : α) :
    alookup k (aupsert m k v) = some v := by
  induction m with
  | nil => simp [aupsert]
  | cons p rest ih =>
    by_cases hp : p.1 = k
    · simp [aupsert, hp]
    · have hk : ¬ k = p.1 := fun h => hp h.symm
      simp [aupsert, hp, hk, ih]

theorem alookup_aupsert_ne {α : Type} (m : List (Nat × α)) (k : Nat) (v : α)
    (k' : Nat) (h : k' ≠ k) : alookup k' (aupsert m k v) = alookup k' m := by
  induction m with
  | nil => simp [aupsert, h]
  | cons p rest ih =>
    by_cases hp : p.1 = k
    · have hk' : ¬ k' = p.1 := by rw [hp]; exact h
      simp [aupsert, hp, h, hk']
    · simp [aupsert, hp, ih]

theorem mem_aupsert {α : Type} (m : List (Nat × α)) (k : Nat) (v : α)
    (x : Nat × α) (h : x ∈ aupsert m k v) : x ∈ m ∨ x = (k, v) := by
  induction m with
  | nil =>
    simp [aupsert] at h
    exact Or.inr h
  | cons p rest ih =>
    by_cases hp : p.1 = k
    · rw [show aupsert (p :: rest) k v = (k, v) :: rest from by
        simp [aupsert, hp]] at h
      rcases List.mem_cons.mp h with heq | hmem
      · exact Or.inr heq
      · exact Or.inl (List.mem_cons_of_mem _ hmem)
    · rw [show aupsert (p :: rest) k v = p :: aupsert rest k v from by
        simp [aupsert, hp]] at h
      rcases List.mem_cons.mp h with heq | hmem
      · refine Or.inl ?_
        rw [heq]
        exact List.mem_cons_self _ _
      · rcases ih hmem with h2 | h2
        · exact Or.inl (List.mem_cons_of_mem _ h2)
        · exact Or.inr h2

theorem alookup_mem {α : Type} (m : List (Nat × α)) (k : Nat) (v : α)
    (h : alookup k m = some v) : (k, v) ∈ m := by
  induction m with
  | nil => cases h
  | cons p rest ih =>
    by_cases hk : k = p.1
    · rw [alookup_cons, if_pos hk] at h
      injection h with h2
      rw [hk, ← h2, Prod.mk.eta]
      exact List.mem_cons_self _ _
    · rw [alookup_cons, if_neg hk] at h
      exact List.mem_cons_of_mem _ (ih h)

theorem killedQueriesList_shape (g : Nat → Except ErrorCode Session)
    (session : Session) :
    killedQueriesList g session = [] ∨
    ∃ qs, killedQueriesList g session = [(session.session_id, qs)] := by
  unfold killedQueriesList
  by_cases h1 : isKeyNotFound (g session.session_id)
  · simp [h1]
  · by_cases h2 :
      (mergeQueries (valueOf (g session.session_id)).queries session.queries).2.isEmpty
    · simp [h1, h2]
    · refine Or.inr
        ⟨(mergeQueries (valueOf (g session.session_id)).queries
          session.queries).2, ?_⟩
      simp [h1, h2]

theorem updateStep_kq_empty (g : Nat → Except ErrorCode Session) (acc : UpdateAcc)
    (session : Session) (h : killedQueriesList g session = []) :
    (updateStep g acc session).killedQueries = acc.killedQueries := by
  unfold killedQueriesList at h
  unfold updateStep updateBody addKilledQueries
  by_cases h1 : isKeyNotFound (g session.session_id)
  · simp [h1]
  · by_cases h3 :
      (mergeQueries (valueOf (g session.session_id)).queries session.queries).2.isEmpty
    · by_cases h2 : (valueOf (g session.session_id)).update_time > session.update_time
      · simp [h1, h2, h3]
      · simp [h1, h2, h3]
    · simp [h1, h3] at h

theorem updateStep_kq_assign (g : Nat → Except ErrorCode Session) (acc : UpdateAcc)
    (session : Session) (qs : List (Nat × QueryDesc))
    (h : killedQueriesList g session = [(session.session_id, qs)]) :
    (updateStep g acc session).killedQueries =
      aupsert acc.killedQueries session.session_id qs := by
  unfold killedQueriesList at h
  unfold updateStep updateBody addKilledQueries
  by_cases h1 : isKeyNotFound (g session.session_id)
  · simp [h1] at h
  · by_cases h3 :
      (mergeQueries (valueOf (g session.session_id)).queries session.queries).2.isEmpty
    · simp [h1, h3] at h
    · have hq : (mergeQueries (valueOf (g session.session_id)).queries
          session.queries).2 = qs := by
        simp [h1, h3] at h
        exact h
      have hqne : qs ≠ [] := by
        rw [← hq]
        intro hc
        rw [hc] at h3
        exact h3 rfl
      by_cases h2 : (valueOf (g session.session_id)).update_time > session.update_time
      · simp [h1, h2, h3, hq, hqne]
      · simp [h1, h2, h3, hq, hqne]

theorem updateStep_ks (g : Nat → Except ErrorCode Session) (acc : UpdateAcc)
    (session : Session) :
    (updateStep g acc session).killedSessions =
      acc.killedSessions ++ killedSessList g session := by
  unfold updateStep killedSessList
  by_cases h : isKeyNotFound (g session.session_id)
  · simp [h]
  · simp [h, updateBody_killedSessions]

theorem mem_concatMap {α β : Type} (f : α → List β) (l : List α) (b : β) :
    b ∈ concatMap f l ↔ ∃ a, a ∈ l ∧ b ∈ f a := by
  induction l with
  | nil => simp [concatMap]
  | cons x l ih =>
    simp [concatMap, ih]

theorem foldl_updateStep_data (g : Nat → Except ErrorCode Session)
    (sessions : List Session) :
    ∀ acc : UpdateAcc,
      (sessions.foldl (updateStep g) acc).data =
        acc.data ++ concatMap (stageList g) sessions := by
  induction sessions with
  | nil => intro acc; simp [concatMap]
  | cons s l ih =>
    intro acc
    simp only [List.foldl_cons, ih, updateStep_data, concatMap, List.append_assoc]

theorem foldl_kq_mem (g : Nat → Except ErrorCode Session) (sessions : List Session) :
    ∀ (acc : UpdateAcc) (x : Nat × List (Nat × QueryDesc)),
      x ∈ (sessions.foldl (updateStep g) acc).killedQueries →
      x ∈ acc.killedQueries ∨
        ∃ sess, sess ∈ sessions ∧ x ∈ killedQueriesList g sess := by
  induction sessions with
  | nil =>
    intro acc x h
    exact Or.inl h
  | cons s l ih =>
    intro acc x h
    rcases ih (updateStep g acc s) x h with h2 | ⟨sess, hs, hx⟩
    · rcases killedQueriesList_shape g s with hsh | ⟨qs, hsh⟩
      · rw [updateStep_kq_empty g acc s hsh] at h2
        exact Or.inl h2
      · rw [updateStep_kq_assign g acc s qs hsh] at h2
        rcases mem_aupsert acc.killedQueries s.session_id qs x h2 with h3 | h3
        · exact Or.inl h3
        · refine Or.inr ⟨s, List.mem_cons_self _ _, ?_⟩
          rw [hsh, h3]
          exact List.mem_singleton.mpr rfl
    · exact Or.inr ⟨sess, List.mem_cons_of_mem _ hs, hx⟩

theorem kq_lookup_foldl (g : Nat → Except ErrorCode Session) (sess : Session)
    (qs : List (Nat × QueryDesc))
    (hkl : killedQueriesList g sess = [(sess.session_id, qs)]) :
    ∀ (l : List Session) (acc : UpdateAcc),
      (∀ x ∈ l, x.session_id = sess.session_id → x = sess) →
      (sess ∈ l ∨ alookup sess.session_id acc.killedQueries = some qs) →
      alookup sess.session_id (l.foldl (updateStep g) acc).killedQueries =
        some qs := by
  intro l
  induction l with
  | nil =>
    intro acc _ h
    rcases h with h | h
    · simp at h
    · exact h
  | cons x l ih =>
    intro acc huniq h
    by_cases hxid : x.session_id = sess.session_id
    · have hx : x = sess := huniq x (List.mem_cons_self _ _) hxid
      apply ih (updateStep g acc x)
        (fun y hy hyid => huniq y (List.mem_cons_of_mem _ hy) hyid)
      refine Or.inr ?_
      have hklx : killedQueriesList g x = [(x.session_id, qs)] := by
        rw [hx]
        exact hkl
      rw [updateStep_kq_assign g acc x qs hklx, ← hxid]
      exact alookup_aupsert_self acc.killedQueries x.session_id qs
    · apply ih (updateStep g acc x)
        (fun y hy hyid => huniq y (List.mem_cons_of_mem _ hy) hyid)
      rcases h with h | h
      · rcases List.mem_cons.mp h with heq | hmem2
        · exfalso
          rw [heq] at hxid
          exact hxid rfl
        · exact Or.inl hmem2
      · refine Or.inr ?_
        rcases killedQueriesList_shape g x with hsh | ⟨qs2, hsh⟩
        · rw [updateStep_kq_empty g acc x hsh]
          exact h
        · rw [updateStep_kq_assign g acc x qs2 hsh,
            alookup_aupsert_ne acc.killedQueries x.session_id qs2
              sess.session_id (fun hc => hxid hc.symm)]
          exact h

theorem foldl_updateStep_ks (g : Nat → Except ErrorCode Session)
    (sessions : List Session) :
    ∀ acc : UpdateAcc,
      (sessions.foldl (updateStep g) acc).killedSessions =
        acc.killedSessions ++ concatMap (killedSessList g) sessions := by
  induction sessions with
  | nil => intro acc; simp [concatMap]
  | cons s l ih =>
    intro acc
    simp only [List.foldl_cons, ih, updateStep_ks, concatMap, List.append_assoc]

theorem core_data_mem (g : Nat → Except ErrorCode Session) (sessions : List Session)
    (p : Nat × Session) :
    p ∈ (updateSessionsCore g sessions).data ↔
      ∃ sess, sess ∈ sessions ∧ p ∈ stageList g sess := by
  unfold updateSessionsCore
  rw [foldl_updateStep_data]
  simp [mem_concatMap]

theorem core_kq_mem_sub (g : Nat → Except ErrorCode Session)
    (sessions : List Session) (x : Nat × List (Nat × QueryDesc))
    (h : x ∈ (updateSessionsCore g sessions).killedQueries) :
    ∃ sess, sess ∈ sessions ∧ x ∈ killedQueriesList g sess := by
  unfold updateSessionsCore at h
  rcases foldl_kq_mem g sessions ⟨[], [], []⟩ x h with h2 | h2
  · simp at h2
  · exact h2

theorem mem_stageList (g : Nat → Except ErrorCode Session) (session : Session)
    (k : Nat) (s' : Session) (h : (k, s') ∈ stageList g session) :
    k = session.session_id ∧ isKeyNotFound (g session.session_id) = false ∧
      ¬ (valueOf (g session.session_id)).update_time > session.update_time ∧
      s' = { session with
              queries :=
                (mergeQueries (valueOf (g session.session_id)).queries
                  session.queries).1 } := by
  unfold stageList at h
  by_cases h1 : isKeyNotFound (g session.session_id)
  · simp [h1] at h
  · by_cases h2 : (valueOf (g session.session_id)).update_time > session.update_time
    · simp [h1, h2] at h
    · simp [h1, h2] at h
      exact ⟨h.1, by simp [h1], h2, h.2⟩

theorem setKilling_status (d : QueryDesc) : (setKilling d).status = .KILLING := rfl

theorem setKilling_idem (d : QueryDesc) : setKilling (setKilling d) = setKilling d := rfl

theorem alookup_updateStatus (qs : List (Nat × QueryDesc)) (e ep : Nat) :
    alookup ep (updateStatus qs e) =
      if ep = e then (alookup ep qs).map setKilling else alookup ep qs := by
  induction qs with
  | nil => by_cases h : ep = e <;> simp [updateStatus, h]
  | cons p rest ih =>
    simp only [updateStatus, List.map_cons] at ih ⊢
    by_cases he : ep = e
    · subst he
      by_cases hpe : p.1 = ep
      · simp [hpe, ih]
      · have hep : ¬ ep = p.1 := fun h => hpe h.symm
        simp [hpe, hep, ih]
    · by_cases hep : ep = p.1
      · have hpe : ¬ p.1 = e := fun h => he (hep.trans h)
        simp [hpe, hep, he]
      · by_cases hpe : p.1 = e <;> simp [hpe, hep, he, ih]

theorem mergeQueries_nil (newQ : List (Nat × QueryDesc)) :
    mergeQueries [] newQ = (newQ, []) := rfl

theorem mergeQueries_cons_none (e : Nat) (d : QueryDesc)
    (saved newQ : List (Nat × QueryDesc)) (h : alookup e newQ = none) :
    mergeQueries ((e, d) :: saved) newQ = mergeQueries saved newQ := by
  simp [mergeQueries, h]

theorem mergeQueries_cons_killing (e : Nat) (d : QueryDesc)
    (saved newQ : List (Nat × QueryDesc)) (w : QueryDesc)
    (h : alookup e newQ = some w) (hd : d.status = .KILLING) :
    mergeQueries ((e, d) :: saved) newQ =
      ((mergeQueries saved (updateStatus newQ e)).1,
       (e, d) :: (mergeQueries saved (updateStatus newQ e)).2) := by
  simp [mergeQueries, h, hd]

theorem mergeQueries_cons_other (e : Nat) (d : QueryDesc)
    (saved newQ : List (Nat × QueryDesc)) (w : QueryDesc)
    (h : alookup e newQ = some w) (hd : ¬ d.status = .KILLING) :
    mergeQueries ((e, d) :: saved) newQ = mergeQueries saved newQ := by
  simp [mergeQueries, h, hd]

/-- The reconciled snapshot queries agree with the submitted snapshot pointwise,
except that a status may have been overwritten to `KILLING` (no entry is added,
removed, or otherwise modified). -/
theorem merge_lookup_or (saved : List (Nat × QueryDesc)) :
    ∀ (newQ : List (Nat × QueryDesc)) (ep : Nat),
      alookup ep (mergeQueries saved newQ).1 = alookup ep newQ ∨
        alookup ep (mergeQueries saved newQ).1 = (alookup ep newQ).map setKilling := by
  induction saved with
  | nil => intro newQ ep; exact Or.inl rfl
  | cons p saved ih =>
    obtain ⟨e, d⟩ := p
    intro newQ ep
    cases hfind : alookup e newQ with
    | none => rw [mergeQueries_cons_none e d saved newQ hfind]; exact ih newQ ep
    | some w =>
      by_cases hd : d.status = .KILLING
      · rw [mergeQueries_cons_killing e d saved newQ w hfind hd]
        rcases ih (updateStatus newQ e) ep with h | h
        · rw [h, alookup_updateStatus]
          by_cases he : ep = e
          · exact Or.inr (by simp [he])
          · exact Or.inl (by simp [he])
        · rw [h, alookup_updateStatus]
          by_cases he : ep = e
          · refine Or.inr ?_
            simp only [if_pos he]
            cases alookup ep newQ <;> simp [setKilling_idem]
          · exact Or.inr (by simp [he])
      · rw [mergeQueries_cons_other e d saved newQ w hfind hd]; exact ih newQ ep

/-- If the submitted snapshot's entry for a plan id is already `KILLING`,
reconciliation keeps it `KILLING`. -/
theorem merge_preserves_killing (saved newQ : List (Nat × QueryDesc)) (ep : Nat)
    (q : QueryDesc) (hq : alookup ep newQ = some q) (hk : q.status = .KILLING)
    (q' : QueryDesc) (hq' : alookup ep (mergeQueries saved newQ).1 = some q') :
    q'.status = .KILLING := by
  rcases merge_lookup_or saved newQ ep with h | h
  · rw [h, hq] at hq'
    cases hq'
    exact hk
  · rw [h, hq] at hq'
    simp at hq'
    rw [← hq']
    rfl

/-- If the persisted record's entry for a plan id is `KILLING`, the reconciled
snapshot's entry for that plan id (when present) is `KILLING`: the kill signal
is never lost and never downgraded. -/
theorem merge_keeps_killing (saved : List (Nat × QueryDesc)) :
    ∀ (newQ : List (Nat × QueryDesc)) (ep : Nat) (d : QueryDesc),
      alookup ep saved = some d → d.status = .KILLING →
      ∀ q', alookup ep (mergeQueries saved newQ).1 = some q' →
        q'.status = .KILLING := by
  induction saved with
  | nil => intro newQ ep d hd; simp at hd
  | cons p saved ih =>
    obtain ⟨e, dd⟩ := p
    intro newQ ep d hd hk q' hq'
    by_cases hepe : ep = e
    · subst hepe
      have hd' : dd = d := by simpa using hd
      subst hd'
      cases hfind : alookup ep newQ with
      | none =>
        rw [mergeQueries_cons_none _ _ _ _ hfind] at hq'
        rcases merge_lookup_or saved newQ ep with h | h
        · rw [h, hfind] at hq'; cases hq'
        · rw [h, hfind] at hq'; cases hq'
      | some w =>
        rw [mergeQueries_cons_killing _ _ _ _ w hfind hk] at hq'
        refine merge_preserves_killing saved (updateStatus newQ ep) ep
          (setKilling w) ?_ rfl q' hq'
        rw [alookup_updateStatus]
        simp [hfind]
    · have hd2 : alookup ep saved = some d := by simpa [hepe] using hd
      cases hfind : alookup e newQ with
      | none =>
        rw [mergeQueries_cons_none _ _ _ _ hfind] at hq'
        exact ih newQ ep d hd2 hk q' hq'
      | some w =>
        by_cases hdd : dd.status = .KILLING
        · rw [mergeQueries_cons_killing _ _ _ _ w hfind hdd] at hq'
          exact ih (updateStatus newQ e) ep d hd2 hk q' hq'
        · rw [mergeQueries_cons_other _ _ _ _ w hfind hdd] at hq'
          exact ih newQ ep d hd2 hk q' hq'

/-- Every entry of the killed-queries map produced by reconciliation is an entry
of the persisted record, with its persisted (already `KILLING`) descriptor. -/
theorem merge_killed_mem (saved : List (Nat × QueryDesc)) :
    ∀ (newQ : List (Nat × QueryDesc)) (ep : Nat) (d : QueryDesc),
      (ep, d) ∈ (mergeQueries saved newQ).2 →
        (ep, d) ∈ saved ∧ d.status = .KILLING := by
  induction saved with
  | nil => intro newQ ep d h; simp [mergeQueries] at h
  | cons p saved ih =>
    obtain ⟨e, dd⟩ := p
    intro newQ ep d h
    cases hfind : alookup e newQ with
    | none =>
      rw [mergeQueries_cons_none _ _ _ _ hfind] at h
      have h2 := ih newQ ep d h
      exact ⟨List.mem_cons_of_mem _ h2.1, h2.2⟩
    | some w =>
      by_cases hdd : dd.status = .KILLING
      · rw [mergeQueries_cons_killing _ _ _ _ w hfind hdd] at h
        rcases List.mem_cons.mp h with h | h
        · simp at h
          obtain ⟨h1, h2⟩ := h
          subst h1
          subst h2
          exact ⟨List.mem_cons_self _ _, hdd⟩
        · have h2 := ih (updateStatus newQ e) ep d h
          exact ⟨List.mem_cons_of_mem _ h2.1, h2.2⟩
      · rw [mergeQueries_cons_other _ _ _ _ w hfind hdd] at h
        have h2 := ih newQ ep d h
        exact ⟨List.mem_cons_of_mem _ h2.1, h2.2⟩

theorem statusAt_eq_some (st : Store) (sid ep : Nat) (q : QueryStatus)
    (h : statusAt st sid ep = some q) :
    ∃ s d, alookup sid st = some s ∧ alookup ep s.queries = some d ∧
      d.status = q := by
  cases hs : alookup sid st with
  | none =>
    unfold statusAt at h
    rw [hs] at h
    cases h
  | some s =>
    have h2 : (alookup ep s.queries).map QueryDesc.status = some q := by
      unfold statusAt at h
      rw [hs] at h
      exact h
    cases hd : alookup ep s.queries with
    | none => rw [hd] at h2; cases h2
    | some d =>
      rw [hd] at h2
      simp at h2
      exact ⟨s, d, rfl, hd, h2⟩

theorem statusAt_build (st : Store) (sid ep : Nat) (s : Session) (d : QueryDesc)
    (hs : alookup sid st = some s) (hd : alookup ep s.queries = some d) :
    statusAt st sid ep = some d.status := by
  unfold statusAt
  rw [hs]
  show (alookup ep s.queries).map QueryDesc.status = some d.status
  rw [hd]
  rfl

theorem statusAt_congr (st st' : Store) (sid ep : Nat)
    (h : alookup sid st' = alookup sid st) :
    statusAt st' sid ep = statusAt st sid ep := by
  unfold statusAt
  rw [h]

theorem updateTimeAt_eq_some (st : Store) (sid : Nat) (t : Nat)
    (h : updateTimeAt st sid = some t) :
    ∃ s, alookup sid st = some s ∧ s.update_time = t := by
  unfold updateTimeAt at h
  cases hs : alookup sid st with
  | none => rw [hs] at h; cases h
  | some s =>
    rw [hs] at h
    simp at h
    exact ⟨s, rfl, h⟩

theorem updateTimeAt_congr (st st' : Store) (sid : Nat)
    (h : alookup sid st' = alookup sid st) :
    updateTimeAt st' sid = updateTimeAt st sid := by
  unfold updateTimeAt
  rw [h]

theorem store_get_ok (st : Store) (sid : Nat) (s : Session)
    (h : alookup sid st = some s) :
    Store.get st sid = .ok s ∧ isKeyNotFound (Store.get st sid) = false ∧
      valueOf (Store.get st sid) = s := by
  unfold Store.get
  rw [h]
  exact ⟨rfl, rfl, rfl⟩

theorem store_get_none (st : Store) (sid : Nat) (h : alookup sid st = none) :
    Store.get st sid = .error .E_KEY_NOT_FOUND := by
  unfold Store.get
  rw [h]

theorem store_get_not_knf (st : Store) (sid : Nat)
    (h : isKeyNotFound (Store.get st sid) = false) :
    ∃ s, alookup sid st = some s ∧ valueOf (Store.get st sid) = s := by
  cases hs : alookup sid st with
  | none =>
    rw [store_get_none st sid hs] at h
    cases h
  | some s => exact ⟨s, rfl, (store_get_ok st sid s hs).2.2⟩

theorem mem_killedQueriesList (g : Nat → Except ErrorCode Session)
    (session : Session) (sid : Nat) (qs : List (Nat × QueryDesc))
    (h : (sid, qs) ∈ killedQueriesList g session) :
    sid = session.session_id ∧ isKeyNotFound (g session.session_id) = false ∧
      qs = (mergeQueries (valueOf (g session.session_id)).queries
        session.queries).2 := by
  unfold killedQueriesList at h
  by_cases h1 : isKeyNotFound (g session.session_id)
  · simp [h1] at h
  · by_cases h2 :
      (mergeQueries (valueOf (g session.session_id)).queries session.queries).2.isEmpty
    · simp [h1, h2] at h
    · simp [h1, h2] at h
      exact ⟨h.1, by simp [h1], h.2⟩

theorem killEps_nil (s : Session) : killEps s [] = .ok s := rfl

theorem killEps_cons_none (s : Session) (e : Nat) (rest : List Nat)
    (h : alookup e s.queries = none) :
    killEps s (e :: rest) = .error .E_QUERY_NOT_FOUND := by
  simp [killEps, h]

theorem killEps_cons_some (s : Session) (e : Nat) (rest : List Nat) (w : QueryDesc)
    (h : alookup e s.queries = some w) :
    killEps s (e :: rest) =
      killEps { s with queries := updateStatus s.queries e } rest := by
  simp [killEps, h]

theorem killEps_lookup (eps : List Nat) :
    ∀ (s s' : Session), killEps s eps = .ok s' →
      ∀ ep, alookup ep s'.queries = alookup ep s.queries ∨
        alookup ep s'.queries = (alookup ep s.queries).map setKilling := by
  induction eps with
  | nil =>
    intro s s' h ep
    cases h
    exact Or.inl rfl
  | cons e rest ih =>
    intro s s' h ep
    cases hfind : alookup e s.queries with
    | none => rw [killEps_cons_none s e rest hfind] at h; cases h
    | some w =>
      rw [killEps_cons_some s e rest w hfind] at h
      rcases ih _ s' h ep with h2 | h2
      · rw [h2]
        show alookup ep (updateStatus s.queries e) = _ ∨
          alookup ep (updateStatus s.queries e) = _
        rw [alookup_updateStatus]
        by_cases he : ep = e
        · exact Or.inr (by simp [he])
        · exact Or.inl (by simp [he])
      · rw [h2]
        show (alookup ep (updateStatus s.queries e)).map setKilling = _ ∨
          (alookup ep (updateStatus s.queries e)).map setKilling = _
        rw [alookup_updateStatus]
        by_cases he : ep = e
        · refine Or.inr ?_
          simp only [if_pos he]
          cases alookup ep s.queries <;> simp [setKilling_idem]
        · exact Or.inr (by simp [he])

theorem killEps_fields (eps : List Nat) :
    ∀ (s s' : Session), killEps s eps = .ok s' →
      s'.session_id = s.session_id ∧ s'.update_time = s.update_time := by
  induction eps with
  | nil =>
    intro s s' h
    cases h
    exact ⟨rfl, rfl⟩
  | cons e rest ih =>
    intro s s' h
    cases hfind : alookup e s.queries with
    | none => rw [killEps_cons_none s e rest hfind] at h; cases h
    | some w =>
      rw [killEps_cons_some s e rest w hfind] at h
      have h3 := ih _ s' h
      exact ⟨h3.1, h3.2⟩

theorem killEps_ok_iff (eps : List Nat) :
    ∀ s : Session, (∃ s', killEps s eps = .ok s') ↔
      ∀ ep ∈ eps, (alookup ep s.queries).isSome := by
  induction eps with
  | nil =>
    intro s
    constructor
    · intro _ ep hep
      simp at hep
    · intro _
      exact ⟨s, rfl⟩
  | cons e rest ih =>
    intro s
    cases hfind : alookup e s.queries with
    | none =>
      rw [killEps_cons_none s e rest hfind]
      constructor
      · rintro ⟨s', hs'⟩
        cases hs'
      · intro hall
        have h2 := hall e (List.mem_cons_self e rest)
        rw [hfind] at h2
        cases h2
    | some w =>
      rw [killEps_cons_some s e rest w hfind]
      rw [ih { s with queries := updateStatus s.queries e }]
      constructor
      · intro hall ep hep
        rcases List.mem_cons.mp hep with rfl | hep2
        · rw [hfind]
          rfl
        · have h2 : (alookup ep (updateStatus s.queries e)).isSome = true :=
            hall ep hep2
          rw [alookup_updateStatus] at h2
          by_cases he : ep = e
          · rw [he, hfind]
            rfl
          · rw [if_neg he] at h2
            exact h2
      · intro hall ep hep
        show (alookup ep (updateStatus s.queries e)).isSome = true
        rw [alookup_updateStatus]
        by_cases he : ep = e
        · rw [if_pos he, he, hfind]
          rfl
        · rw [if_neg he]
          exact hall ep (List.mem_cons_of_mem e hep)

theorem killEps_error_char (eps : List Nat) :
    ∀ (s : Session) (e : ErrorCode), killEps s eps = .error e →
      e = .E_QUERY_NOT_FOUND ∧ ∃ ep ∈ eps, alookup ep s.queries = none := by
  induction eps with
  | nil => intro s e h; cases h
  | cons e0 rest ih =>
    intro s e h
    cases hfind : alookup e0 s.queries with
    | none =>
      rw [killEps_cons_none s e0 rest hfind] at h
      cases h
      exact ⟨rfl, e0, List.mem_cons_self _ _, hfind⟩
    | some w =>
      rw [killEps_cons_some s e0 rest w hfind] at h
      obtain ⟨he, ep, hep, hlook⟩ := ih _ e h
      refine ⟨he, ep, List.mem_cons_of_mem _ hep, ?_⟩
      have hlook2 : alookup ep (updateStatus s.queries e0) = none := hlook
      rw [alookup_updateStatus] at hlook2
      by_cases hee : ep = e0
      · rw [if_pos hee, hee, hfind] at hlook2
        cases hlook2
      · rw [if_neg hee] at hlook2
        exact hlook2

theorem killEps_kills (eps : List Nat) :
    ∀ (s s' : Session), killEps s eps = .ok s' →
      ∀ ep ∈ eps, ∃ d, alookup ep s'.queries = some d ∧ d.status = .KILLING := by
  induction eps with
  | nil =>
    intro s s' h ep hep
    simp at hep
  | cons e rest ih =>
    intro s s' h ep hep
    cases hfind : alookup e s.queries with
    | none => rw [killEps_cons_none s e rest hfind] at h; cases h
    | some w =>
      rw [killEps_cons_some s e rest w hfind] at h
      rcases List.mem_cons.mp hep with rfl | hep2
      · rcases killEps_lookup rest _ s' h ep with h2 | h2
        · have h3 : alookup ep s'.queries =
              alookup ep (updateStatus s.queries ep) := h2
          rw [alookup_updateStatus, if_pos rfl, hfind] at h3
          exact ⟨setKilling w, h3, rfl⟩
        · have h3 : alookup ep s'.queries =
              (alookup ep (updateStatus s.queries ep)).map setKilling := h2
          rw [alookup_updateStatus, if_pos rfl, hfind] at h3
          exact ⟨setKilling (setKilling w), h3, rfl⟩
      · exact ih _ s' h ep hep2

theorem killQueryLoop_nil (g : Nat → Except ErrorCode Session)
    (data : List (Nat × Session)) : killQueryLoop g [] data = .ok data := rfl

theorem killQueryLoop_cons_err (g : Nat → Except ErrorCode Session)
    (sessionId : Nat) (eps : List Nat) (rest : List (Nat × List Nat))
    (data : List (Nat × Session)) (e : ErrorCode) (h : g sessionId = .error e) :
    killQueryLoop g ((sessionId, eps) :: rest) data =
      .error (if e = .E_KEY_NOT_FOUND then .E_SESSION_NOT_FOUND else e) := by
  simp [killQueryLoop, h]

theorem killQueryLoop_cons_ok_err (g : Nat → Except ErrorCode Session)
    (sessionId : Nat) (eps : List Nat) (rest : List (Nat × List Nat))
    (data : List (Nat × Session)) (s : Session) (e : ErrorCode)
    (hg : g sessionId = .ok s) (hk : killEps s eps = .error e) :
    killQueryLoop g ((sessionId, eps) :: rest) data = .error e := by
  simp [killQueryLoop, hg, hk]

theorem killQueryLoop_cons_ok_ok (g : Nat → Except ErrorCode Session)
    (sessionId : Nat) (eps : List Nat) (rest : List (Nat × List Nat))
    (data : List (Nat × Session)) (s s' : Session)
    (hg : g sessionId = .ok s) (hk : killEps s eps = .ok s') :
    killQueryLoop g ((sessionId, eps) :: rest) data =
      killQueryLoop g rest (data ++ [(sessionId, s')]) := by
  simp [killQueryLoop, hg, hk]

theorem killLoop_mono (g : Nat → Except ErrorCode Session)
    (req : List (Nat × List Nat)) :
    ∀ (data0 data : List (Nat × Session)), killQueryLoop g req data0 = .ok data →
      ∀ p, p ∈ data0 → p ∈ data := by
  induction req with
  | nil =>
    intro data0 data h p hp
    cases h
    exact hp
  | cons q rest ih =>
    obtain ⟨sessionId, eps⟩ := q
    intro data0 data h p hp
    cases hg : g sessionId with
    | error e => rw [killQueryLoop_cons_err _ _ _ _ _ _ hg] at h; cases h
    | ok s =>
      cases hk : killEps s eps with
      | error e => rw [killQueryLoop_cons_ok_err _ _ _ _ _ _ _ hg hk] at h; cases h
      | ok s' =>
        rw [killQueryLoop_cons_ok_ok _ _ _ _ _ _ _ hg hk] at h
        exact ih _ _ h p (List.mem_append_left _ hp)

theorem killLoop_data_mem (g : Nat → Except ErrorCode Session)
    (req : List (Nat × List Nat)) :
    ∀ (data0 data : List (Nat × Session)), killQueryLoop g req data0 = .ok data →
      ∀ p, p ∈ data → p ∈ data0 ∨
        ∃ sessionId eps s s', (sessionId, eps) ∈ req ∧ p = (sessionId, s') ∧
          g sessionId = .ok s ∧ killEps s eps = .ok s' := by
  induction req with
  | nil =>
    intro data0 data h p hp
    cases h
    exact Or.inl hp
  | cons q rest ih =>
    obtain ⟨sessionId, eps⟩ := q
    intro data0 data h p hp
    cases hg : g sessionId with
    | error e => rw [killQueryLoop_cons_err _ _ _ _ _ _ hg] at h; cases h
    | ok s =>
      cases hk : killEps s eps with
      | error e => rw [killQueryLoop_cons_ok_err _ _ _ _ _ _ _ hg hk] at h; cases h
      | ok s' =>
        rw [killQueryLoop_cons_ok_ok _ _ _ _ _ _ _ hg hk] at h
        rcases ih _ _ h p hp with hmem | ⟨sid2, eps2, s2, s2', hmem, hp2, hg2, hk2⟩
        · rcases List.mem_append.mp hmem with hmem | hmem
          · exact Or.inl hmem
          · simp at hmem
            exact Or.inr ⟨sessionId, eps, s, s', List.mem_cons_self _ _, hmem, hg, hk⟩
        · exact Or.inr ⟨sid2, eps2, s2, s2', List.mem_cons_of_mem _ hmem, hp2, hg2, hk2⟩

theorem killLoop_keys (g : Nat → Except ErrorCode Session)
    (req : List (Nat × List Nat)) :
    ∀ (data0 data : List (Nat × Session)), killQueryLoop g req data0 = .ok data →
      data.map Prod.fst = data0.map Prod.fst ++ req.map Prod.fst := by
  induction req with
  | nil =>
    intro data0 data h
    cases h
    simp
  | cons q rest ih =>
    obtain ⟨sessionId, eps⟩ := q
    intro data0 data h
    cases hg : g sessionId with
    | error e => rw [killQueryLoop_cons_err _ _ _ _ _ _ hg] at h; cases h
    | ok s =>
      cases hk : killEps s eps with
      | error e => rw [killQueryLoop_cons_ok_err _ _ _ _ _ _ _ hg hk] at h; cases h
      | ok s' =>
        rw [killQueryLoop_cons_ok_ok _ _ _ _ _ _ _ hg hk] at h
        have h2 := ih _ _ h
        rw [h2]
        simp

theorem killLoop_entry (g : Nat → Except ErrorCode Session)
    (req : List (Nat × List Nat)) :
    ∀ (data0 data : List (Nat × Session)), killQueryLoop g req data0 = .ok data →
      ∀ sessionId eps, (sessionId, eps) ∈ req →
        ∃ s s', g sessionId = .ok s ∧ killEps s eps = .ok s' ∧
          (sessionId, s') ∈ data := by
  induction req with
  | nil =>
    intro data0 data h sessionId eps hmem
    simp at hmem
  | cons q rest ih =>
    obtain ⟨sid0, eps0⟩ := q
    intro data0 data h sessionId eps hmem
    cases hg : g sid0 with
    | error e => rw [killQueryLoop_cons_err _ _ _ _ _ _ hg] at h; cases h
    | ok s0 =>
      cases hk : killEps s0 eps0 with
      | error e => rw [killQueryLoop_cons_ok_err _ _ _ _ _ _ _ hg hk] at h; cases h
      | ok s0' =>
        rw [killQueryLoop_cons_ok_ok _ _ _ _ _ _ _ hg hk] at h
        rcases List.mem_cons.mp hmem with heq | hmem2
        · have h1 : sessionId = sid0 := congrArg Prod.fst heq
          have h2 : eps = eps0 := congrArg Prod.snd heq
          subst h1
          subst h2
          refine ⟨s0, s0', hg, hk, ?_⟩
          exact killLoop_mono g rest _ data h _
            (List.mem_append_right _ (List.mem_cons_self _ _))
        · exact ih _ _ h sessionId eps hmem2

theorem killLoop_ok_iff (st : Store) (req : List (Nat × List Nat)) :
    ∀ data0, (∃ data, killQueryLoop (Store.get st) req data0 = .ok data) ↔
      AllPresent st req := by
  induction req with
  | nil =>
    intro data0
    constructor
    · intro _ p hp
      simp at hp
    · intro _
      exact ⟨data0, rfl⟩
  | cons q rest ih =>
    obtain ⟨sessionId, eps⟩ := q
    intro data0
    cases hs : alookup sessionId st with
    | none =>
      have hg := store_get_none st sessionId hs
      constructor
      · rintro ⟨data, hd⟩
        rw [killQueryLoop_cons_err _ _ _ _ _ _ hg] at hd
        cases hd
      · intro hall
        obtain ⟨s, hs2, _⟩ := hall (sessionId, eps) (List.mem_cons_self _ _)
        rw [hs] at hs2
        cases hs2
    | some s =>
      have hg := (store_get_ok st sessionId s hs).1
      cases hk : killEps s eps with
      | error e =>
        constructor
        · rintro ⟨data, hd⟩
          rw [killQueryLoop_cons_ok_err _ _ _ _ _ _ _ hg hk] at hd
          cases hd
        · intro hall
          obtain ⟨s2, hs2, hall2⟩ := hall (sessionId, eps) (List.mem_cons_self _ _)
          rw [hs] at hs2
          cases hs2
          obtain ⟨s', hok⟩ := (killEps_ok_iff eps s).mpr hall2
          rw [hok] at hk
          cases hk
      | ok s' =>
        constructor
        · rintro ⟨data, hd⟩
          rw [killQueryLoop_cons_ok_ok _ _ _ _ _ _ _ hg hk] at hd
          intro p hp
          rcases List.mem_cons.mp hp with heq | hp2
          · subst heq
            exact ⟨s, hs, (killEps_ok_iff eps s).mp ⟨s', hk⟩⟩
          · exact (ih _).mp ⟨data, hd⟩ p hp2
        · intro hall
          obtain ⟨data, hd⟩ := (ih (data0 ++ [(sessionId, s')])).mpr
            (fun p hp => hall p (List.mem_cons_of_mem _ hp))
          refine ⟨data, ?_⟩
          rw [killQueryLoop_cons_ok_ok _ _ _ _ _ _ _ hg hk]
          exact hd

theorem killLoop_error_char (st : Store) (req : List (Nat × List Nat)) :
    ∀ data0 e, killQueryLoop (Store.get st) req data0 = .error e →
      (e = .E_SESSION_NOT_FOUND ∧ ∃ p ∈ req, alookup p.1 st = none) ∨
      (e = .E_QUERY_NOT_FOUND ∧ ∃ p ∈ req, ∃ s, alookup p.1 st = some s ∧
        ∃ ep ∈ p.2, alookup ep s.queries = none) := by
  induction req with
  | nil => intro d0 e h; cases h
  | cons q rest ih =>
    obtain ⟨sessionId, eps⟩ := q
    intro d0 e h
    cases hs : alookup sessionId st with
    | none =>
      have hg := store_get_none st sessionId hs
      rw [killQueryLoop_cons_err _ _ _ _ _ _ hg] at h
      cases h
      exact Or.inl ⟨by simp, (sessionId, eps), List.mem_cons_self _ _, hs⟩
    | some s =>
      have hg := (store_get_ok st sessionId s hs).1
      cases hk : killEps s eps with
      | error e2 =>
        rw [killQueryLoop_cons_ok_err _ _ _ _ _ _ _ hg hk] at h
        cases h
        obtain ⟨he2, ep, hep, hlook⟩ := killEps_error_char eps s _ hk
        exact Or.inr ⟨he2, (sessionId, eps), List.mem_cons_self _ _, s, hs,
          ep, hep, hlook⟩
      | ok s' =>
        rw [killQueryLoop_cons_ok_ok _ _ _ _ _ _ _ hg hk] at h
        rcases ih _ e h with ⟨he, p, hp, hrest⟩ | ⟨he, p, hp, hrest⟩
        · exact Or.inl ⟨he, p, List.mem_cons_of_mem _ hp, hrest⟩
        · exact Or.inr ⟨he, p, List.mem_cons_of_mem _ hp, hrest⟩

theorem removeLoop_nil (getFail : Nat → Option ErrorCode)
    (removeResult : Nat → ErrorCode) (st : Store) (acc : List Nat) :
    removeLoop getFail removeResult st [] acc = (st, acc) := rfl

theorem removeLoop_cons (getFail : Nat → Option ErrorCode)
    (removeResult : Nat → ErrorCode) (st : Store) (sessionId : Nat)
    (rest : List Nat) (acc : List Nat) :
    removeLoop getFail removeResult st (sessionId :: rest) acc =
      match removeGet getFail st sessionId with
      | .error _ => removeLoop getFail removeResult st rest acc
      | .ok _ =>
        if removeResult sessionId = .SUCCEEDED then
          removeLoop getFail removeResult (st.remove sessionId) rest
            (acc ++ [sessionId])
        else removeLoop getFail removeResult st rest acc := rfl

theorem filter_ext {α : Type} (p q : α → Bool) (l : List α)
    (h : ∀ x ∈ l, p x = q x) : l.filter p = l.filter q := by
  induction l with
  | nil => rfl
  | cons x l ih =>
    rw [List.filter_cons, List.filter_cons, h x (List.mem_cons_self x l),
      ih (fun y hy => h y (List.mem_cons_of_mem x hy))]

theorem removeGet_none (st : Store) (sessionId : Nat) :
    removeGet (fun _ => none) st sessionId = Store.get st sessionId := rfl

theorem removeLoop_removed (removeResult : Nat → ErrorCode) (ids : List Nat) :
    ∀ (st : Store) (acc : List Nat), ids.Nodup →
      (removeLoop (fun _ => none) removeResult st ids acc).2 =
        acc ++ ids.filter (fun sessionId =>
          (alookup sessionId st).isSome &&
            decide (removeResult sessionId = .SUCCEEDED)) := by
  induction ids with
  | nil =>
    intro st acc _
    simp [removeLoop_nil]
  | cons sessionId rest ih =>
    intro st acc hnd
    rw [List.nodup_cons] at hnd
    rw [removeLoop_cons]
    cases hlook : alookup sessionId st with
    | none =>
      rw [removeGet_none, store_get_none st sessionId hlook]
      rw [ih st acc hnd.2, List.filter_cons]
      simp [hlook]
    | some s =>
      rw [removeGet_none, (store_get_ok st sessionId s hlook).1]
      by_cases hrr : removeResult sessionId = .SUCCEEDED
      · rw [if_pos hrr]
        rw [ih (st.remove sessionId) (acc ++ [sessionId]) hnd.2]
        have hfil : rest.filter (fun k =>
            (alookup k (st.remove sessionId)).isSome &&
              decide (removeResult k = .SUCCEEDED)) =
          rest.filter (fun k =>
            (alookup k st).isSome && decide (removeResult k = .SUCCEEDED)) := by
          apply filter_ext
          intro x hx
          have hxne : ¬ x = sessionId := fun hxe => hnd.1 (hxe ▸ hx)
          rw [alookup_remove, if_neg hxne]
        rw [hfil, List.filter_cons]
        simp [hlook, hrr]
      · rw [if_neg hrr]
        rw [ih st acc hnd.2, List.filter_cons]
        simp [hlook, hrr]

theorem removeLoop_getfail (getFail : Nat → Option ErrorCode)
    (removeResult : Nat → ErrorCode) (sessionId : Nat) (e : ErrorCode)
    (hf : getFail sessionId = some e) (ids : List Nat) :
    ∀ (st : Store) (acc : List Nat), sessionId ∉ acc →
      sessionId ∉ (removeLoop getFail removeResult st ids acc).2 ∧
      alookup sessionId (removeLoop getFail removeResult st ids acc).1 =
        alookup sessionId st := by
  induction ids with
  | nil =>
    intro st acc h
    exact ⟨h, rfl⟩
  | cons id2 rest ih =>
    intro st acc hacc
    rw [removeLoop_cons]
    by_cases hid : id2 = sessionId
    · subst hid
      have hget : removeGet getFail st id2 = .error e := by
        unfold removeGet
        rw [hf]
      rw [hget]
      exact ih st acc hacc
    · cases hget : removeGet getFail st id2 with
      | error e2 => exact ih st acc hacc
      | ok s =>
        by_cases hrr : removeResult id2 = .SUCCEEDED
        · rw [if_pos hrr]
          have hacc2 : sessionId ∉ acc ++ [id2] := by
            intro hmem
            rcases List.mem_append.mp hmem with h2 | h2
            · exact hacc h2
            · simp at h2
              exact hid h2.symm
          have h2 := ih (st.remove id2) (acc ++ [id2]) hacc2
          refine ⟨h2.1, ?_⟩
          rw [h2.2, alookup_remove, if_neg (fun h3 => hid h3.symm)]
        · rw [if_neg hrr]
          exact ih st acc hacc

theorem removeLoop_store_or (getFail : Nat → Option ErrorCode)
    (removeResult : Nat → ErrorCode) (ids : List Nat) :
    ∀ (st : Store) (acc : List Nat) (k : Nat),
      alookup k (removeLoop getFail removeResult st ids acc).1 = alookup k st ∨
      alookup k (removeLoop getFail removeResult st ids acc).1 = none := by
  induction ids with
  | nil =>
    intro st acc k
    exact Or.inl rfl
  | cons sessionId rest ih =>
    intro st acc k
    rw [removeLoop_cons]
    cases hget : removeGet getFail st sessionId with
    | error e => exact ih st acc k
    | ok s =>
      by_cases hrr : removeResult sessionId = .SUCCEEDED
      · rw [if_pos hrr]
        rcases ih (st.remove sessionId) (acc ++ [sessionId]) k with h2 | h2
        · rw [h2, alookup_remove]
          by_cases hk : k = sessionId
          · exact Or.inr (by simp [hk])
          · exact Or.inl (by simp [hk])
        · exact Or.inr h2
      · rw [if_neg hrr]
        exact ih st acc k

theorem statusAt_some_of_lookup (st : Store) (sid ep : Nat) (s : Session)
    (hs : alookup sid st = some s) :
    statusAt st sid ep = (alookup ep s.queries).map QueryDesc.status := by
  unfold statusAt
  rw [hs]

theorem update_apply_store (st : Store) (putResult : ErrorCode)
    (sessions : List Session) (hp : putResult = .SUCCEEDED) :
    (updateSessionsProcess st putResult sessions).1 =
      st.putAll (updateSessionsCore (Store.get st) sessions).data := by
  simp [updateSessionsProcess, hp]

theorem update_apply_store_fail (st : Store) (putResult : ErrorCode)
    (sessions : List Session) (hp : putResult ≠ .SUCCEEDED) :
    (updateSessionsProcess st putResult sessions).1 = st := by
  simp [updateSessionsProcess, hp]

theorem updateSessions_resp_ok (st : Store) (putResult : ErrorCode)
    (sessions : List Session) (hp : putResult = .SUCCEEDED) :
    (updateSessionsProcess st putResult sessions).2 =
      ⟨.SUCCEEDED, some (updateSessionsCore (Store.get st) sessions).killedQueries,
        some (updateSessionsCore (Store.get st) sessions).killedSessions⟩ := by
  simp [updateSessionsProcess, updateSessionsRespG, hp]

theorem create_apply_store_nouser (st : Store) (userCheck : ErrorCode)
    (clock : Nat) (user graphAddr clientIp : String) (putResult : ErrorCode)
    (hu : userCheck ≠ .SUCCEEDED) :
    (createSessionProcess st userCheck clock user graphAddr clientIp putResult).1 =
      st := by
  simp [createSessionProcess, hu]

theorem create_apply_store_ok (st : Store) (userCheck : ErrorCode) (clock : Nat)
    (user graphAddr clientIp : String) (putResult : ErrorCode)
    (hu : userCheck = .SUCCEEDED) (hp : putResult = .SUCCEEDED) :
    (createSessionProcess st userCheck clock user graphAddr clientIp putResult).1 =
      st.put1 (clock, freshSession clock user graphAddr clientIp) := by
  simp [createSessionProcess, hu, hp]

theorem create_apply_store_putfail (st : Store) (userCheck : ErrorCode)
    (clock : Nat) (user graphAddr clientIp : String) (putResult : ErrorCode)
    (hp : putResult ≠ .SUCCEEDED) :
    (createSessionProcess st userCheck clock user graphAddr clientIp putResult).1 =
      st := by
  unfold createSessionProcess
  by_cases hu : userCheck ≠ .SUCCEEDED
  · rw [if_pos hu]
  · rw [if_neg hu, if_neg hp]

theorem kill_apply_store_err (st : Store) (putResult : ErrorCode)
    (req : List (Nat × List Nat)) (e : ErrorCode)
    (hl : killQueryLoop (Store.get st) req [] = .error e) :
    (killQueryProcess st putResult req).1 = st ∧
      (killQueryProcess st putResult req).2 = e :=
  ⟨by simp [killQueryProcess, hl], by simp [killQueryProcess, hl]⟩

theorem kill_apply_store_ok (st : Store) (putResult : ErrorCode)
    (req : List (Nat × List Nat)) (data : List (Nat × Session))
    (hl : killQueryLoop (Store.get st) req [] = .ok data)
    (hp : putResult = .SUCCEEDED) :
    (killQueryProcess st putResult req).1 = st.putAll data ∧
      (killQueryProcess st putResult req).2 = .SUCCEEDED :=
  ⟨by simp [killQueryProcess, hl, hp], by simp [killQueryProcess, hl, hp]⟩

theorem kill_apply_store_putfail (st : Store) (putResult : ErrorCode)
    (req : List (Nat × List Nat)) (data : List (Nat × Session))
    (hl : killQueryLoop (Store.get st) req [] = .ok data)
    (hp : putResult ≠ .SUCCEEDED) :
    (killQueryProcess st putResult req).1 = st := by
  simp [killQueryProcess, hl, hp]

/-- C1 counterexample: an UpdateSessions call whose reconciliation discovers
killed session 1 (it is absent from the store) but whose final batched write
fails reports the store error with the killed-sessions and killed-queries
response fields left unset — the discovered results are not returned to the
caller, contrary to the claim. -/
theorem updateSessions_results_dropped_on_put_failure :
    (updateSessionsCore (Store.get ([] : Store)) [mkSession 1 1 []]).killedSessions =
      [1] ∧
    (updateSessionsProcess ([] : Store) (.E_OTHER 0)
      [mkSession 1 1 []]).2.killed_sessions = none ∧
    (updateSessionsProcess ([] : Store) (.E_OTHER 0)
      [mkSession 1 1 []]).2.killed_queries = none ∧
    (updateSessionsProcess ([] : Store) (.E_OTHER 0)
      [mkSession 1 1 []]).2.code = .E_OTHER 0 := by
  refine ⟨?_, rfl, rfl, rfl⟩
  rfl

/-- C1 (amended): when the final batched store write of UpdateSessions fails,
the operation reports the store error, leaves the store unchanged, and returns
a response whose killed-sessions and killed-queries fields are unset: the
results discovered during reconciliation are dropped, not returned. -/
theorem updateSessions_put_failure (st : Store) (putResult : ErrorCode)
    (sessions : List Session) (hp : putResult ≠ .SUCCEEDED) :
    updateSessionsProcess st putResult sessions = (st, ⟨putResult, none, none⟩) := by
  simp [updateSessionsProcess, updateSessionsRespG, hp]

/-- C1 witness: the amended theorem evaluated on a failing write. -/
theorem updateSessions_put_failure_witness :
    updateSessionsProcess ([] : Store) (.E_OTHER 0) [mkSession 1 1 []] =
      ([], ⟨.E_OTHER 0, none, none⟩) :=
  updateSessions_put_failure [] (.E_OTHER 0) [mkSession 1 1 []] (by decide)

/-- C5: in the UpdateSessions snapshot loop, a lookup failing with the generic
`E_KEY_NOT_FOUND` adds the session id to the killed-sessions result and stages
nothing for it; a lookup failing with any other error leaves killed-sessions
alone and falls through into the query-merge body using the failed lookup's
(junk) result value; and no lookup error is ever propagated to the caller —
the response code is always the final write's result. -/
theorem updateSessions_lookup_error_paths (g : Nat → Except ErrorCode Session)
    (acc : UpdateAcc) (session : Session) (putResult : ErrorCode)
    (sessions : List Session) :
    (g session.session_id = .error .E_KEY_NOT_FOUND →
      updateStep g acc session =
        { acc with killedSessions := acc.killedSessions ++ [session.session_id] }) ∧
    (∀ e, g session.session_id = .error e → e ≠ .E_KEY_NOT_FOUND →
      updateStep g acc session = updateBody acc session defaultSession ∧
      (updateStep g acc session).killedSessions = acc.killedSessions) ∧
    (updateSessionsRespG g putResult sessions).code = putResult := by
  refine ⟨?_, ?_, ?_⟩
  · intro h
    have hk : isKeyNotFound (g session.session_id) = true := by
      rw [h]
      rfl
    simp [updateStep, hk]
  · intro e he hne
    have hk : isKeyNotFound (g session.session_id) = false := by
      rw [he]
      cases e <;> first
        | rfl
        | exact absurd rfl hne
    have hv : valueOf (g session.session_id) = defaultSession := by
      rw [he]
      rfl
    constructor
    · simp [updateStep, hk, hv]
    · simp [updateStep, hk, updateBody_killedSessions]
  · unfold updateSessionsRespG
    by_cases hp : putResult = .SUCCEEDED
    · rw [if_pos hp, hp]
    · rw [if_neg hp]

/-- C5 witness: the other-error path evaluated on a lookup failing with a
non-generic store error. -/
theorem updateSessions_lookup_error_paths_witness :
    updateStep (fun _ => .error (.E_OTHER 2)) ⟨[], [], []⟩ (mkSession 1 1 []) =
      updateBody ⟨[], [], []⟩ (mkSession 1 1 []) defaultSession :=
  ((updateSessions_lookup_error_paths (fun _ => .error (.E_OTHER 2)) ⟨[], [], []⟩
    (mkSession 1 1 []) .SUCCEEDED []).2.1 (.E_OTHER 2) rfl (by decide)).1

/-- C7: CreateSession fails with the directory's error code and performs no
store write when the external user check fails; otherwise (when the store
write succeeds) it persists, with a single key/value write, a session whose
`session_id` is the clock reading and whose `create_time` and `update_time`
both equal the `session_id`, and returns the full record in the response. -/
theorem createSession_spec (st : Store) (userCheck : ErrorCode) (clock : Nat)
    (user graphAddr clientIp : String) (putResult : ErrorCode) :
    (userCheck ≠ .SUCCEEDED →
      createSessionProcess st userCheck clock user graphAddr clientIp putResult =
        (st, userCheck, none)) ∧
    (userCheck = .SUCCEEDED → putResult = .SUCCEEDED →
      createSessionProcess st userCheck clock user graphAddr clientIp putResult =
        (st.put1 (clock, freshSession clock user graphAddr clientIp), .SUCCEEDED,
          some (freshSession clock user graphAddr clientIp))) ∧
    (freshSession clock user graphAddr clientIp).session_id = clock ∧
    (freshSession clock user graphAddr clientIp).create_time =
      (freshSession clock user graphAddr clientIp).session_id ∧
    (freshSession clock user graphAddr clientIp).update_time =
      (freshSession clock user graphAddr clientIp).session_id := by
  refine ⟨?_, ?_, rfl, rfl, rfl⟩
  · intro hu
    simp [createSessionProcess, hu]
  · intro hu hp
    simp [createSessionProcess, hu, hp]

/-- C7 witness: a successful creation evaluated at clock reading 5. -/
theorem createSession_spec_witness :
    createSessionProcess ([] : Store) .SUCCEEDED 5 "u" "g" "c" .SUCCEEDED =
      (Store.put1 [] (5, freshSession 5 "u" "g" "c"), .SUCCEEDED,
        some (freshSession 5 "u" "g" "c")) :=
  (createSession_spec [] .SUCCEEDED 5 "u" "g" "c" .SUCCEEDED).2.1 rfl rfl

/-- C8: RemoveSession always reports overall success, and the returned
removed-session ids are exactly the requested ids whose session was found in
the store and whose individual remove succeeded; absent sessions and failed
removes are skipped without aborting the batch. -/
theorem removeSession_spec (st : Store) (removeResult : Nat → ErrorCode)
    (ids : List Nat) (hnd : ids.Nodup) :
    (removeSessionProcess st (fun _ => none) removeResult ids).2.2 = .SUCCEEDED ∧
    (removeSessionProcess st (fun _ => none) removeResult ids).2.1 =
      ids.filter (fun sessionId =>
        (alookup sessionId st).isSome &&
          decide (removeResult sessionId = .SUCCEEDED)) := by
  refine ⟨rfl, ?_⟩
  have h := removeLoop_removed removeResult ids st [] hnd
  simpa [removeSessionProcess] using h

/-- C8 witness: a mixed batch (present ids 1 and 3, absent id 2, remove of 3
failing at the store) evaluated through the theorem. -/
theorem removeSession_spec_witness :
    (removeSessionProcess [(1, mkSession 1 1 []), (3, mkSession 3 3 [])]
      (fun _ => none)
      (fun sessionId => if sessionId = 3 then .E_OTHER 7 else .SUCCEEDED)
      [1, 2, 3]).2.2 = .SUCCEEDED ∧
    (removeSessionProcess [(1, mkSession 1 1 []), (3, mkSession 3 3 [])]
      (fun _ => none)
      (fun sessionId => if sessionId = 3 then .E_OTHER 7 else .SUCCEEDED)
      [1, 2, 3]).2.1 =
      [1, 2, 3].filter (fun sessionId =>
        (alookup sessionId
          [(1, mkSession 1 1 []), (3, mkSession 3 3 [])]).isSome &&
          decide ((fun sessionId =>
            if sessionId = 3 then ErrorCode.E_OTHER 7 else .SUCCEEDED) sessionId =
            .SUCCEEDED)) :=
  removeSession_spec [(1, mkSession 1 1 []), (3, mkSession 3 3 [])]
    (fun sessionId => if sessionId = 3 then .E_OTHER 7 else .SUCCEEDED)
    [1, 2, 3] (by decide)

/-- C10: a RemoveSession per-id lookup failing with any error code, not only
key-not-found, silently skips that id: it is missing from the returned removed
ids, its store entry is untouched, and the call still reports overall
success. -/
theorem removeSession_lookup_error_skipped (st : Store)
    (getFail : Nat → Option ErrorCode) (removeResult : Nat → ErrorCode)
    (ids : List Nat) (sessionId : Nat) (e : ErrorCode)
    (hf : getFail sessionId = some e) :
    sessionId ∉ (removeSessionProcess st getFail removeResult ids).2.1 ∧
    alookup sessionId (removeSessionProcess st getFail removeResult ids).1 =
      alookup sessionId st ∧
    (removeSessionProcess st getFail removeResult ids).2.2 = .SUCCEEDED := by
  have h := removeLoop_getfail getFail removeResult sessionId e hf ids st []
    (by simp)
  exact ⟨h.1, h.2, rfl⟩

/-- C10 witness: a lookup for id 1 failing with a non-generic store error,
with id 1 present in the store and a remove that would succeed. -/
theorem removeSession_lookup_error_skipped_witness :
    1 ∉ (removeSessionProcess [(1, mkSession 1 1 [])]
        (fun sessionId => if sessionId = 1 then some (.E_OTHER 3) else none)
        (fun _ => .SUCCEEDED) [1, 2]).2.1 ∧
    alookup 1 (removeSessionProcess [(1, mkSession 1 1 [])]
        (fun sessionId => if sessionId = 1 then some (.E_OTHER 3) else none)
        (fun _ => .SUCCEEDED) [1, 2]).1 =
      alookup 1 [(1, mkSession 1 1 [])] ∧
    (removeSessionProcess [(1, mkSession 1 1 [])]
        (fun sessionId => if sessionId = 1 then some (.E_OTHER 3) else none)
        (fun _ => .SUCCEEDED) [1, 2]).2.2 = .SUCCEEDED :=
  removeSession_lookup_error_skipped [(1, mkSession 1 1 [])]
    (fun sessionId => if sessionId = 1 then some (.E_OTHER 3) else none)
    (fun _ => .SUCCEEDED) [1, 2] 1 (.E_OTHER 3) (by decide)

/-- C2: for every operation of the subsystem and every persisted session, a
query entry whose persisted status is `KILLING` before the operation still has
status `KILLING` after the operation whenever it is still present in the
persisted session; no operation ever writes it back as `RUNNING`. -/
theorem killing_never_reverted (op : SessionOp) (st : Store) (sid ep : Nat)
    (hbefore : statusAt st sid ep = some .KILLING)
    (hafter : (statusAt (op.apply st) sid ep).isSome = true) :
    statusAt (op.apply st) sid ep = some .KILLING := by
  obtain ⟨s, d, hs, hd, hdk⟩ := statusAt_eq_some st sid ep .KILLING hbefore
  cases op with
  | create user graphAddr clientIp userCheck clock putResult =>
    by_cases hu : userCheck ≠ .SUCCEEDED
    · have hst : SessionOp.apply
          (.create user graphAddr clientIp userCheck clock putResult) st = st :=
        create_apply_store_nouser st userCheck clock user graphAddr clientIp
          putResult hu
      rw [hst]
      exact hbefore
    · rw [not_not] at hu
      by_cases hp : putResult = .SUCCEEDED
      · have hst : SessionOp.apply
            (.create user graphAddr clientIp userCheck clock putResult) st =
            st.put1 (clock, freshSession clock user graphAddr clientIp) :=
          create_apply_store_ok st userCheck clock user graphAddr clientIp
            putResult hu hp
        rw [hst] at hafter ⊢
        by_cases hc : sid = clock
        · exfalso
          subst hc
          have hl : alookup sid
              (st.put1 (sid, freshSession sid user graphAddr clientIp)) =
              some (freshSession sid user graphAddr clientIp) :=
            alookup_put1_self st (sid, freshSession sid user graphAddr clientIp)
          rw [statusAt_some_of_lookup _ sid ep _ hl] at hafter
          simp [freshSession] at hafter
        · have hl : alookup sid
              (st.put1 (clock, freshSession clock user graphAddr clientIp)) =
              alookup sid st :=
            alookup_put1_ne st _ sid hc
          exact (statusAt_congr st _ sid ep hl).trans hbefore
      · have hst : SessionOp.apply
            (.create user graphAddr clientIp userCheck clock putResult) st = st :=
          create_apply_store_putfail st userCheck clock user graphAddr clientIp
            putResult hp
        rw [hst]
        exact hbefore
  | update sessions putResult =>
    by_cases hp : putResult = .SUCCEEDED
    · have hst : SessionOp.apply (.update sessions putResult) st =
          st.putAll (updateSessionsCore (Store.get st) sessions).data :=
        update_apply_store st putResult sessions hp
      rw [hst] at hafter ⊢
      rcases alookup_putAll_or (updateSessionsCore (Store.get st) sessions).data
          st sid with h2 | ⟨v, hv, hlook⟩
      · exact (statusAt_congr st _ sid ep h2).trans hbefore
      · obtain ⟨sess, hmemsess, hstage⟩ :=
          (core_data_mem (Store.get st) sessions (sid, v)).mp hv
        obtain ⟨hksid, hknf, hguard, hveq⟩ :=
          mem_stageList (Store.get st) sess sid v hstage
        have hvo : valueOf (Store.get st sess.session_id) = s := by
          rw [← hksid]
          exact (store_get_ok st sid s hs).2.2
        rw [statusAt_some_of_lookup _ sid ep _ hlook] at hafter ⊢
        cases hq : alookup ep v.queries with
        | none =>
          rw [hq] at hafter
          simp at hafter
        | some d' =>
          have hq2 : alookup ep
              (mergeQueries (valueOf (Store.get st sess.session_id)).queries
                sess.queries).1 = some d' := by
            rw [hveq] at hq
            exact hq
          rw [hvo] at hq2
          have hdk' : d'.status = .KILLING :=
            merge_keeps_killing s.queries sess.queries ep d hd hdk d' hq2
          simp [hdk']
    · have hst : SessionOp.apply (.update sessions putResult) st = st :=
        update_apply_store_fail st putResult sessions hp
      rw [hst]
      exact hbefore
  | removeOp ids getFail removeResult =>
    have hst : SessionOp.apply (.removeOp ids getFail removeResult) st =
        (removeLoop getFail removeResult st ids []).1 := rfl
    rw [hst] at hafter ⊢
    rcases removeLoop_store_or getFail removeResult ids st [] sid with h2 | h2
    · exact (statusAt_congr st _ sid ep h2).trans hbefore
    · exfalso
      have hsn : statusAt (removeLoop getFail removeResult st ids []).1 sid ep =
          none := by
        unfold statusAt
        rw [h2]
      rw [hsn] at hafter
      cases hafter
  | kill req putResult =>
    cases hl : killQueryLoop (Store.get st) req [] with
    | error e =>
      have hst : SessionOp.apply (.kill req putResult) st = st :=
        (kill_apply_store_err st putResult req e hl).1
      rw [hst]
      exact hbefore
    | ok data =>
      by_cases hp : putResult = .SUCCEEDED
      · have hst : SessionOp.apply (.kill req putResult) st = st.putAll data :=
          (kill_apply_store_ok st putResult req data hl hp).1
        rw [hst] at hafter ⊢
        rcases alookup_putAll_or data st sid with h2 | ⟨v, hv, hlook⟩
        · exact (statusAt_congr st _ sid ep h2).trans hbefore
        · rcases killLoop_data_mem (Store.get st) req [] data hl (sid, v) hv with
            habs | ⟨sid2, eps2, s2, s2', hmem2, hpeq, hg2, hk2⟩
          · simp at habs
          · have hsid2 : sid2 = sid := (congrArg Prod.fst hpeq).symm
            have hv2 : v = s2' := congrArg Prod.snd hpeq
            rw [hsid2] at hg2
            have hs2 : s2 = s := by
              have hg3 := (store_get_ok st sid s hs).1
              rw [hg2] at hg3
              injection hg3
            subst hs2
            subst hv2
            rw [statusAt_some_of_lookup _ sid ep _ hlook] at hafter ⊢
            rcases killEps_lookup eps2 s2 v hk2 ep with h3 | h3
            · rw [h3, hd]
              simp [hdk]
            · rw [h3, hd]
              simp [setKilling]
      · have hst : SessionOp.apply (.kill req putResult) st = st :=
          kill_apply_store_putfail st putResult req data hl hp
        rw [hst]
        exact hbefore
  | listOp => exact hbefore
  | getOp sessionId => exact hbefore

/-- C2 witness: a persisted `KILLING` query survives an UpdateSessions call
whose snapshot still reports it `RUNNING`. -/
theorem killing_never_reverted_witness :
    statusAt
      ((SessionOp.update [mkSession 1 9 [(7, ⟨.RUNNING, 5⟩)]] .SUCCEEDED).apply
        [(1, mkSession 1 3 [(7, ⟨.KILLING, 4⟩)])]) 1 7 = some .KILLING :=
  killing_never_reverted (.update [mkSession 1 9 [(7, ⟨.RUNNING, 5⟩)]] .SUCCEEDED)
    [(1, mkSession 1 3 [(7, ⟨.KILLING, 4⟩)])] 1 7 (by decide) (by decide)

/-- C6: for every session id and every single subsystem operation (under the
spec's standing assumption that the clock-generated id of a create does not
collide with a stored session), the persisted `update_time` of a session never
decreases: whenever the session is persisted both before and after the
operation, the new value is at least the old one.  Chaining this over a
sequence of operations gives the claim for any sequence of writes. -/
theorem update_time_monotone (op : SessionOp) (st : Store) (sid : Nat)
    (t t' : Nat) (hfresh : op.createFresh st)
    (hbefore : updateTimeAt st sid = some t)
    (hafter : updateTimeAt (op.apply st) sid = some t') :
    t ≤ t' := by
  obtain ⟨s, hs, hst⟩ := updateTimeAt_eq_some st sid t hbefore
  cases op with
  | create user graphAddr clientIp userCheck clock putResult =>
    have hfresh2 : alookup clock st = none := hfresh
    by_cases hu : userCheck ≠ .SUCCEEDED
    · have hst1 : SessionOp.apply
          (.create user graphAddr clientIp userCheck clock putResult) st = st :=
        create_apply_store_nouser st userCheck clock user graphAddr clientIp
          putResult hu
      rw [hst1, hbefore] at hafter
      injection hafter with h
      omega
    · rw [not_not] at hu
      by_cases hp : putResult = .SUCCEEDED
      · have hst1 : SessionOp.apply
            (.create user graphAddr clientIp userCheck clock putResult) st =
            st.put1 (clock, freshSession clock user graphAddr clientIp) :=
          create_apply_store_ok st userCheck clock user graphAddr clientIp
            putResult hu hp
        rw [hst1] at hafter
        by_cases hc : sid = clock
        · exfalso
          rw [hc, hfresh2] at hs
          cases hs
        · have hl : alookup sid
              (st.put1 (clock, freshSession clock user graphAddr clientIp)) =
              alookup sid st :=
            alookup_put1_ne st _ sid hc
          rw [updateTimeAt_congr st _ sid hl, hbefore] at hafter
          injection hafter with h
          omega
      · have hst1 : SessionOp.apply
            (.create user graphAddr clientIp userCheck clock putResult) st = st :=
          create_apply_store_putfail st userCheck clock user graphAddr clientIp
            putResult hp
        rw [hst1, hbefore] at hafter
        injection hafter with h
        omega
  | update sessions putResult =>
    by_cases hp : putResult = .SUCCEEDED
    · have hst1 : SessionOp.apply (.update sessions putResult) st =
          st.putAll (updateSessionsCore (Store.get st) sessions).data :=
        update_apply_store st putResult sessions hp
      rw [hst1] at hafter
      obtain ⟨s', hs', hst'⟩ := updateTimeAt_eq_some _ sid t' hafter
      rcases alookup_putAll_or (updateSessionsCore (Store.get st) sessions).data
          st sid with h2 | ⟨v, hv, hlook⟩
      · rw [h2, hs] at hs'
        injection hs' with h3
        rw [← h3] at hst'
        omega
      · rw [hlook] at hs'
        injection hs' with h3
        rw [← h3] at hst'
        obtain ⟨sess, hmemsess, hstage⟩ :=
          (core_data_mem (Store.get st) sessions (sid, v)).mp hv
        obtain ⟨hksid, hknf, hguard, hveq⟩ :=
          mem_stageList (Store.get st) sess sid v hstage
        have hvo : valueOf (Store.get st sess.session_id) = s := by
          rw [← hksid]
          exact (store_get_ok st sid s hs).2.2
        rw [hvo] at hguard
        have hvt : v.update_time = sess.update_time := by
          rw [hveq]
        omega
    · have hst1 : SessionOp.apply (.update sessions putResult) st = st :=
        update_apply_store_fail st putResult sessions hp
      rw [hst1, hbefore] at hafter
      injection hafter with h
      omega
  | removeOp ids getFail removeResult =>
    have hst1 : SessionOp.apply (.removeOp ids getFail removeResult) st =
        (removeLoop getFail removeResult st ids []).1 := rfl
    rw [hst1] at hafter
    obtain ⟨s', hs', hst'⟩ := updateTimeAt_eq_some _ sid t' hafter
    rcases removeLoop_store_or getFail removeResult ids st [] sid with h2 | h2
    · rw [h2, hs] at hs'
      injection hs' with h3
      rw [← h3] at hst'
      omega
    · rw [h2] at hs'
      cases hs'
  | kill req putResult =>
    cases hl : killQueryLoop (Store.get st) req [] with
    | error e =>
      have hst1 : SessionOp.apply (.kill req putResult) st = st :=
        (kill_apply_store_err st putResult req e hl).1
      rw [hst1, hbefore] at hafter
      injection hafter with h
      omega
    | ok data =>
      by_cases hp : putResult = .SUCCEEDED
      · have hst1 : SessionOp.apply (.kill req putResult) st = st.putAll data :=
          (kill_apply_store_ok st putResult req data hl hp).1
        rw [hst1] at hafter
        obtain ⟨s', hs', hst'⟩ := updateTimeAt_eq_some _ sid t' hafter
        rcases alookup_putAll_or data st sid with h2 | ⟨v, hv, hlook⟩
        · rw [h2, hs] at hs'
          injection hs' with h3
          rw [← h3] at hst'
          omega
        · rw [hlook] at hs'
          injection hs' with h3
          rw [← h3] at hst'
          rcases killLoop_data_mem (Store.get st) req [] data hl (sid, v) hv with
            habs | ⟨sid2, eps2, s2, s2', hmem2, hpeq, hg2, hk2⟩
          · simp at habs
          · have hsid2 : sid2 = sid := (congrArg Prod.fst hpeq).symm
            have hv2 : v = s2' := congrArg Prod.snd hpeq
            rw [hsid2] at hg2
            have hs2 : s2 = s := by
              have hg3 := (store_get_ok st sid s hs).1
              rw [hg2] at hg3
              injection hg3
            subst hs2
            subst hv2
            have hut := (killEps_fields eps2 s2 v hk2).2
            omega
      · have hst1 : SessionOp.apply (.kill req putResult) st = st :=
          kill_apply_store_putfail st putResult req data hl hp
        rw [hst1, hbefore] at hafter
        injection hafter with h
        omega
  | listOp =>
    have hst1 : SessionOp.apply .listOp st = st := rfl
    rw [hst1, hbefore] at hafter
    injection hafter with h
    omega
  | getOp sessionId =>
    have hst1 : SessionOp.apply (.getOp sessionId) st = st := rfl
    rw [hst1, hbefore] at hafter
    injection hafter with h
    omega

/-- C6 witness: an accepted heartbeat advances the persisted update time from
3 to 9. -/
theorem update_time_monotone_witness : (3 : Nat) ≤ 9 :=
  update_time_monotone (.update [mkSession 1 9 []] .SUCCEEDED)
    [(1, mkSession 1 3 [])] 1 3 9 trivial (by decide) (by decide)

/-- C4 counterexample: the claim fails when two snapshots of the same call
carry the same session id: with store entry 1 holding queries 7 and 8 both
`KILLING` (update time 10), the stale snapshot (update time 5, query 7)
discovers killed query 7 during reconciliation, but the later same-id stale
snapshot (update time 6, query 8) overwrites `killedQueries[1]`, so the
returned map holds only query 8 — the first snapshot's discovered killed
query is not included in the response. -/
theorem stale_killed_query_displaced :
    (mkSession 1 5 [(7, ⟨.RUNNING, 1⟩)]).update_time <
      (mkSession 1 10 [(7, ⟨.KILLING, 0⟩), (8, ⟨.KILLING, 0⟩)]).update_time ∧
    (mergeQueries
        (mkSession 1 10 [(7, ⟨.KILLING, 0⟩), (8, ⟨.KILLING, 0⟩)]).queries
        (mkSession 1 5 [(7, ⟨.RUNNING, 1⟩)]).queries).2 =
      [(7, ⟨.KILLING, 0⟩)] ∧
    (updateSessionsProcess
        [(1, mkSession 1 10 [(7, ⟨.KILLING, 0⟩), (8, ⟨.KILLING, 0⟩)])]
        .SUCCEEDED
        [mkSession 1 5 [(7, ⟨.RUNNING, 1⟩)],
         mkSession 1 6 [(8, ⟨.RUNNING, 1⟩)]]).2.killed_queries =
      some [(1, [(8, ⟨.KILLING, 0⟩)])] ∧
    ¬ ((1, [(7, (⟨.KILLING, 0⟩ : QueryDesc))]) ∈
        [(1, [(8, (⟨.KILLING, 0⟩ : QueryDesc))])]) ∧
    ¬ ((7, (⟨.KILLING, 0⟩ : QueryDesc)) ∈
        [(8, (⟨.KILLING, 0⟩ : QueryDesc))]) :=
  ⟨by decide, by decide, by decide, by decide, by decide⟩

/-- C4 (amended): a submitted snapshot whose session exists in the store with
a strictly newer persisted `update_time` is dropped: it stages nothing for the
batched write; and provided its session id occurs in the call only for this
snapshot (a later same-id snapshot would overwrite the killed-queries entry,
and a fresher one could legitimately rewrite the record) and the batched write
succeeds, the persisted record is left unchanged and the killed queries
discovered for that session during reconciliation are included in the returned
killed-queries map. -/
theorem stale_snapshot_dropped (st : Store) (sessions : List Session)
    (sess m : Session) (hmem : sess ∈ sessions)
    (hm : alookup sess.session_id st = some m)
    (hstale : sess.update_time < m.update_time)
    (huniq : ∀ x ∈ sessions, x.session_id = sess.session_id → x = sess) :
    stageList (Store.get st) sess = [] ∧
    alookup sess.session_id (updateSessionsProcess st .SUCCEEDED sessions).1 =
      some m ∧
    ((mergeQueries m.queries sess.queries).2 ≠ [] →
      ∃ kq, (updateSessionsProcess st .SUCCEEDED sessions).2.killed_queries =
        some kq ∧
        (sess.session_id, (mergeQueries m.queries sess.queries).2) ∈ kq) := by
  obtain ⟨hgm, hknf, hvo⟩ := store_get_ok st sess.session_id m hm
  have hstage : ∀ x ∈ sessions, x.session_id = sess.session_id →
      stageList (Store.get st) x = [] := by
    intro x hx hxid
    unfold stageList
    rw [hxid, hknf, hvo]
    have hlt : x.update_time < m.update_time := by
      rw [huniq x hx hxid]
      exact hstale
    simp only [if_false, Bool.false_eq_true]
    rw [if_pos hlt]
  refine ⟨hstage sess hmem rfl, ?_, ?_⟩
  · rw [update_apply_store st .SUCCEEDED sessions rfl]
    have hno : ∀ v, (sess.session_id, v) ∉
        (updateSessionsCore (Store.get st) sessions).data := by
      intro v hv
      obtain ⟨x, hx, hxs⟩ := (core_data_mem (Store.get st) sessions _).mp hv
      have hxid : sess.session_id = x.session_id :=
        (mem_stageList (Store.get st) x _ _ hxs).1
      rw [hstage x hx hxid.symm] at hxs
      simp at hxs
    rw [alookup_putAll_not_mem _ st _ hno]
    exact hm
  · intro hne
    rw [updateSessions_resp_ok st .SUCCEEDED sessions rfl]
    refine ⟨(updateSessionsCore (Store.get st) sessions).killedQueries, rfl, ?_⟩
    have hkl : killedQueriesList (Store.get st) sess =
        [(sess.session_id, (mergeQueries m.queries sess.queries).2)] := by
      unfold killedQueriesList
      rw [hknf, hvo]
      simp only [Bool.false_eq_true, if_false]
      rw [if_neg (by simpa using hne)]
    apply alookup_mem
    unfold updateSessionsCore
    exact kq_lookup_foldl (Store.get st) sess _ hkl sessions ⟨[], [], []⟩ huniq
      (Or.inl hmem)

/-- C4 witness: a stale heartbeat (snapshot time 5 against persisted time 10,
the only snapshot of its session in the call) leaves the persisted record
untouched and still reports the killed query 7. -/
theorem stale_snapshot_dropped_witness :
    stageList
      (Store.get [(1, mkSession 1 10 [(7, ⟨.KILLING, 4⟩)])])
      (mkSession 1 5 [(7, ⟨.RUNNING, 5⟩)]) = [] ∧
    alookup 1
      (updateSessionsProcess [(1, mkSession 1 10 [(7, ⟨.KILLING, 4⟩)])]
        .SUCCEEDED [mkSession 1 5 [(7, ⟨.RUNNING, 5⟩)]]).1 =
      some (mkSession 1 10 [(7, ⟨.KILLING, 4⟩)]) ∧
    ((mergeQueries (mkSession 1 10 [(7, ⟨.KILLING, 4⟩)]).queries
        (mkSession 1 5 [(7, ⟨.RUNNING, 5⟩)]).queries).2 ≠ [] →
      ∃ kq, (updateSessionsProcess [(1, mkSession 1 10 [(7, ⟨.KILLING, 4⟩)])]
          .SUCCEEDED [mkSession 1 5 [(7, ⟨.RUNNING, 5⟩)]]).2.killed_queries =
        some kq ∧
        (1, (mergeQueries (mkSession 1 10 [(7, ⟨.KILLING, 4⟩)]).queries
          (mkSession 1 5 [(7, ⟨.RUNNING, 5⟩)]).queries).2) ∈ kq) :=
  stale_snapshot_dropped [(1, mkSession 1 10 [(7, ⟨.KILLING, 4⟩)])]
    [mkSession 1 5 [(7, ⟨.RUNNING, 5⟩)]]
    (mkSession 1 5 [(7, ⟨.RUNNING, 5⟩)]) (mkSession 1 10 [(7, ⟨.KILLING, 4⟩)])
    (by decide) (by decide) (by decide) (by decide)

/-- C9: every entry of the killed-queries map returned by a successful
UpdateSessions call is the query descriptor as persisted in the store (an
entry of the stored session's query map, already `KILLING`), not the
descriptor from the submitted snapshot; and every staged session is the
submitted snapshot with, at most, some statuses overwritten in place to
`KILLING` (every other part of every descriptor is the snapshot's). -/
theorem killed_queries_from_store (st : Store) (sessions : List Session)
    (kq : List (Nat × List (Nat × QueryDesc)))
    (hkq : (updateSessionsProcess st .SUCCEEDED sessions).2.killed_queries =
      some kq) :
    (∀ sid qs, (sid, qs) ∈ kq → ∀ ep d, (ep, d) ∈ qs →
      ∃ m, alookup sid st = some m ∧ (ep, d) ∈ m.queries ∧
        d.status = .KILLING) ∧
    (∀ k s', (k, s') ∈ (updateSessionsCore (Store.get st) sessions).data →
      ∃ sess, sess ∈ sessions ∧ k = sess.session_id ∧
        ∀ ep, alookup ep s'.queries = alookup ep sess.queries ∨
          alookup ep s'.queries = (alookup ep sess.queries).map setKilling) := by
  rw [updateSessions_resp_ok st .SUCCEEDED sessions rfl] at hkq
  have hkq2 : kq = (updateSessionsCore (Store.get st) sessions).killedQueries := by
    injection hkq with h
    exact h.symm
  constructor
  · intro sid qs hqs ep d hepd
    rw [hkq2] at hqs
    obtain ⟨sess, hsess, hx⟩ := core_kq_mem_sub (Store.get st) sessions _ hqs
    obtain ⟨hsid, hknf, hqseq⟩ := mem_killedQueriesList (Store.get st) sess sid qs hx
    obtain ⟨m, hm, hvo⟩ := store_get_not_knf st sess.session_id hknf
    rw [hqseq, hvo] at hepd
    have h2 := merge_killed_mem m.queries sess.queries ep d hepd
    exact ⟨m, by rw [hsid]; exact hm, h2.1, h2.2⟩
  · intro k s' hmem
    obtain ⟨sess, hsess, hstg⟩ := (core_data_mem (Store.get st) sessions _).mp hmem
    obtain ⟨hkid, hknf, hguard, hveq⟩ := mem_stageList (Store.get st) sess k s' hstg
    refine ⟨sess, hsess, hkid, ?_⟩
    intro ep
    have hq : alookup ep s'.queries = alookup ep
        (mergeQueries (valueOf (Store.get st sess.session_id)).queries
          sess.queries).1 := by
      rw [hveq]
    rw [hq]
    exact merge_lookup_or _ sess.queries ep

/-- C9 witness: the returned descriptor for killed query 7 is the stored one
(metadata 4, already `KILLING`), not the snapshot's copy (metadata 5). -/
theorem killed_queries_from_store_witness :
    ∃ m, alookup 1 [(1, mkSession 1 3 [(7, ⟨.KILLING, 4⟩)])] = some m ∧
      (7, (⟨.KILLING, 4⟩ : QueryDesc)) ∈ m.queries ∧
      (⟨.KILLING, 4⟩ : QueryDesc).status = .KILLING :=
  (killed_queries_from_store [(1, mkSession 1 3 [(7, ⟨.KILLING, 4⟩)])]
      [mkSession 1 9 [(7, ⟨.RUNNING, 5⟩)]]
      [(1, [(7, ⟨.KILLING, 4⟩)])] (by decide)).1
    1 [(7, ⟨.KILLING, 4⟩)] (by decide) 7 ⟨.KILLING, 4⟩ (by decide)

/-- C3 counterexample: session 2 is absent from the store, so the claim says
the call fails with `SessionNotFound`; but the request lists session 1 (whose
query map lacks plan id 99) first, and processing in request order makes the
call fail with `QueryNotFound` instead. -/
theorem killQuery_mixed_failure_counterexample :
    alookup 2 [(1, mkSession 1 1 [(7, ⟨.RUNNING, 0⟩)])] = none ∧
    (killQueryProcess [(1, mkSession 1 1 [(7, ⟨.RUNNING, 0⟩)])] .SUCCEEDED
      [(1, [99]), (2, [7])]).2 = .E_QUERY_NOT_FOUND ∧
    (ErrorCode.E_QUERY_NOT_FOUND ≠ .E_SESSION_NOT_FOUND) := by
  refine ⟨rfl, by decide, by decide⟩

/-- C3 (amended): KillQuery processes the request in order and fails at the
first missing target: the call succeeds exactly when every named session and
every requested plan id is present; on failure the reported code is
`SessionNotFound` (and some named session is absent) or `QueryNotFound` (and
some requested plan id is absent from its present session), according to the
first failing check, and no store write is issued — the table is unchanged;
when no failure occurs and the batched write succeeds, every requested query's
persisted status is `KILLING` and all affected sessions went out in that one
batched write. -/
theorem killQuery_failfast (st : Store) (req : List (Nat × List Nat))
    (putResult : ErrorCode) :
    ((∃ data, killQueryLoop (Store.get st) req [] = .ok data) ↔
      AllPresent st req) ∧
    (∀ e, killQueryLoop (Store.get st) req [] = .error e →
      (killQueryProcess st putResult req).1 = st ∧
      (killQueryProcess st putResult req).2 = e ∧
      ((e = .E_SESSION_NOT_FOUND ∧ ∃ p ∈ req, alookup p.1 st = none) ∨
       (e = .E_QUERY_NOT_FOUND ∧ ∃ p ∈ req, ∃ s, alookup p.1 st = some s ∧
         ∃ ep ∈ p.2, alookup ep s.queries = none))) ∧
    (putResult = .SUCCEEDED → (req.map Prod.fst).Nodup → AllPresent st req →
      (killQueryProcess st putResult req).2 = .SUCCEEDED ∧
      ∀ p ∈ req, ∀ ep ∈ p.2,
        statusAt (killQueryProcess st putResult req).1 p.1 ep =
          some .KILLING) := by
  refine ⟨killLoop_ok_iff st req [], ?_, ?_⟩
  · intro e he
    obtain ⟨h1, h2⟩ := kill_apply_store_err st putResult req e he
    exact ⟨h1, h2, killLoop_error_char st req [] e he⟩
  · intro hp hnd hall
    obtain ⟨data, hd⟩ := (killLoop_ok_iff st req []).mpr hall
    obtain ⟨h1, h2⟩ := kill_apply_store_ok st putResult req data hd hp
    refine ⟨h2, ?_⟩
    intro p hp2 ep hep
    obtain ⟨s, s', hg, hk, hmem⟩ :=
      killLoop_entry (Store.get st) req [] data hd p.1 p.2 (by simpa using hp2)
    have hkeys : data.map Prod.fst = req.map Prod.fst := by
      have h3 := killLoop_keys (Store.get st) req [] data hd
      simpa using h3
    have hndd : (data.map Prod.fst).Nodup := by
      rw [hkeys]
      exact hnd
    have hlook := alookup_putAll_of_mem_nodup data st p.1 s' hndd hmem
    rw [h1]
    obtain ⟨dq, hdq, hdqk⟩ := killEps_kills p.2 s s' hk ep hep
    rw [statusAt_some_of_lookup _ p.1 ep s' hlook, hdq]
    simp [hdqk]

/-- C3 witness: a fully present request evaluated through the amended theorem:
the requested query ends up persisted as `KILLING`. -/
theorem killQuery_failfast_witness :
    statusAt (killQueryProcess [(1, mkSession 1 1 [(7, ⟨.RUNNING, 0⟩)])]
        .SUCCEEDED [(1, [7])]).1 1 7 = some .KILLING := by
  have hall : AllPresent [(1, mkSession 1 1 [(7, ⟨.RUNNING, 0⟩)])]
      [(1, [7])] := by
    intro p hp
    simp only [List.mem_singleton] at hp
    subst hp
    exact ⟨mkSession 1 1 [(7, ⟨.RUNNING, 0⟩)], by decide, by decide⟩
  have h := (killQuery_failfast [(1, mkSession 1 1 [(7, ⟨.RUNNING, 0⟩)])]
      [(1, [7])] .SUCCEEDED).2.2 rfl (by decide) hall
  exact h.2 (1, [7]) (List.mem_singleton.mpr rfl) 7 (List.mem_singleton.mpr rfl)

